import Mathlib

/-!
Shallow embedding of the `tumaco_model` governance-network simulation
(`src/governance_model.py`), together with theorems settling the frozen
claims about its specification.

Conventions of the embedding:
* Python floats are modelled as exact rationals (`ℚ`); the decimal
  constants of the source (`0.05`, `0.7`, ...) appear as the
  corresponding fractions.
* The single shared pseudo-random generator is modelled by explicit
  oracles: every point of the source that consumes randomness
  (`random.random()`, `random.choice(...)`, the per-step shuffle of the
  scheduler) reads a value from the oracle.  Universally quantified
  theorems hold for every oracle, hence for every realizable random
  stream; concrete counterexamples fix realizable oracle values.
* `networkx` calls are embedded per their documented behaviour:
  `add_edge` updates the attribute when the edge exists and otherwise
  appends it (inserting missing endpoints as nodes), `remove_node`
  drops the node and every incident edge, `density` returns `0` for
  graphs with no edge or at most one node, `average_clustering` divides
  the sum of the local clustering coefficients by the number of nodes
  (raising a `ZeroDivisionError` on the empty graph, modelled as
  `none`), and the largest-connected-component size is the maximal
  component cardinality.
* Fallible code (`KeyError` on a missing node, `ZeroDivisionError`)
  returns `Option`, with `none` for the raised exception.
-/

/-- The `AgentType` enum of the source. -/
inductive AgentType where
  | GOVERNMENT
  | CSO
  | PRIVATE_ENTERPRISE
  | ACADEMIC
  deriving DecidableEq, Repr, Fintype

/-- Agent identifiers (`unique_id`). -/
abbrev AgentId := Nat

/-- `GovernanceAgent`: type, resources, commitment and motivation
profile, as set in `GovernanceAgent.__init__`; the dynamically attached
role attributes `is_emu` / `is_catalyst` are modelled as Boolean fields
that are `false` unless `setattr` ran. -/
structure GovernanceAgent where
  unique_id : AgentId
  agent_type : AgentType
  resources : ℚ
  commitment : ℚ
  motivation_profile : ℚ
  is_emu : Bool := false
  is_catalyst : Bool := false
  deriving DecidableEq, Repr

/-- One undirected edge of the `networkx` graph with its
`relationship_strength` attribute. -/
structure Edge where
  u : AgentId
  v : AgentId
  relationship_strength : ℚ
  deriving DecidableEq, Repr

/-- Does edge `e` join the unordered pair `(a, b)`?  (`networkx` edges
are undirected.) -/
def matchesE (e : Edge) (a b : AgentId) : Bool :=
  (e.u == a && e.v == b) || (e.u == b && e.v == a)

/-- The undirected graph `model.G`: node list plus edge list. -/
structure NxGraph where
  nodes : List AgentId
  edges : List Edge
  deriving DecidableEq, Repr

/-- `G.has_edge(u, v)`. -/
def NxGraph.has_edge (G : NxGraph) (a b : AgentId) : Bool :=
  G.edges.any (fun e => matchesE e a b)

/-- Assignment `G[u][v]['relationship_strength'] = f(...)`: rewrite the
strength of every edge joining the pair. -/
def NxGraph.updStrength (G : NxGraph) (a b : AgentId) (f : ℚ → ℚ) : NxGraph :=
  { G with edges := G.edges.map (fun e =>
      if matchesE e a b then { e with relationship_strength := f e.relationship_strength } else e) }

/-- Insert a node if absent (`networkx` auto-creates endpoints). -/
def NxGraph.addNode (G : NxGraph) (a : AgentId) : NxGraph :=
  if G.nodes.contains a then G else { G with nodes := G.nodes ++ [a] }

/-- `G.add_edge(u, v, relationship_strength=s)`: update the attribute if
the edge exists, otherwise append the new edge, creating missing
endpoint nodes. -/
def NxGraph.add_edge (G : NxGraph) (a b : AgentId) (s : ℚ) : NxGraph :=
  let G1 := (G.addNode a).addNode b
  if G1.has_edge a b then G1.updStrength a b (fun _ => s)
  else { G1 with edges := G1.edges ++ [⟨a, b, s⟩] }

/-- `G.remove_node(a)`: drop the node and all incident edges. -/
def NxGraph.remove_node (G : NxGraph) (a : AgentId) : NxGraph :=
  { nodes := G.nodes.filter (fun n => n != a),
    edges := G.edges.filter (fun e => e.u != a && e.v != a) }

/-- `list(G.neighbors(u))` in edge-list order. -/
def neighborsOf (es : List Edge) (a : AgentId) : List AgentId :=
  es.filterMap (fun e => if e.u == a then some e.v else if e.v == a then some e.u else none)

/-- `G[u][v]['relationship_strength']` read with default `0`; every use
in the source reads an edge known to exist. -/
def getStrengthD (es : List Edge) (a b : AgentId) : ℚ :=
  match es.find? (fun e => matchesE e a b) with
  | some e => e.relationship_strength
  | none => 0

/-- One row of the model-level `DataCollector` reporters, in their
declaration order in `GovernanceModel.__init__`. -/
structure Snapshot where
  network_density : ℚ
  average_clustering : ℚ
  number_of_active_edges : Nat
  successful_projects : Nat
  largest_cc : Nat
  deriving DecidableEq, Repr

/-- The mutable state of a `GovernanceModel` instance: the agent
population, the graph, the pending project queue, the scheduler's step
counter, the (immutable) configuration parameters, and the rows already
recorded by the `DataCollector`. -/
structure ModelState where
  agent_set : List GovernanceAgent
  G : NxGraph
  successful_projects : List (AgentId × AgentId)
  steps : Nat
  link_decay_rate : ℚ
  forum_frequency : ℚ
  project_resource_threshold : ℚ
  midpoint_removal_step : Option Nat
  model_vars : List Snapshot
  deriving DecidableEq, Repr

/-- The random draws one call to `GovernanceModel.step` may consume:
the scheduler's shuffled activation order, the per-agent draws of
`attempt_new_collaboration` and `propose_joint_project` (choices are
indices reduced modulo the list length), and the forum draws. -/
structure Oracle where
  order : List AgentId
  collabDraw : AgentId → ℚ
  partnerIdx : AgentId → Nat
  acceptDraw : AgentId → ℚ
  proposeDraw : AgentId → ℚ
  neighborIdx : AgentId → Nat
  forumDraw : ℚ
  attendDraw : AgentId → ℚ

/-- `G.nodes[id]['agent']`: `none` (a raised `KeyError`) when the node
is absent; otherwise the live agent owning the node. -/
def getNodeAgent (st : ModelState) (a : AgentId) : Option GovernanceAgent :=
  if st.G.nodes.contains a then st.agent_set.find? (fun x => x.unique_id == a) else none

/-- `GovernanceAgent.attempt_new_collaboration`. -/
def attempt_new_collaboration (o : Oracle) (a : GovernanceAgent) (st : ModelState) : ModelState :=
  if o.collabDraw a.unique_id < a.commitment then
    let possible_partners := st.agent_set.filter
      (fun p => p.unique_id != a.unique_id && !(st.G.has_edge a.unique_id p.unique_id))
    if h : possible_partners = [] then st
    else
      let partner := possible_partners.get
        ⟨o.partnerIdx a.unique_id % possible_partners.length,
         Nat.mod_lt _ (List.length_pos.mpr h)⟩
      let homophily_score : ℚ := if a.agent_type = partner.agent_type then 1 else 0
      let resource_seeking_score : ℚ := max 0 ((partner.resources - a.resources) / 100)
      let prob := a.motivation_profile * homophily_score +
        (1 - a.motivation_profile) * resource_seeking_score
      if o.acceptDraw a.unique_id < prob then
        { st with G := st.G.add_edge a.unique_id partner.unique_id (1/20) }
      else st
  else st

/-- `GovernanceAgent.propose_joint_project`.  The `none` branch of the
partner lookup corresponds to a `KeyError` in the source; it is
unreachable in model runs because the partner is a graph neighbour, and
is embedded as a no-op. -/
def propose_joint_project (o : Oracle) (a : GovernanceAgent) (st : ModelState) : ModelState :=
  if o.proposeDraw a.unique_id < a.commitment then
    let nbrs := neighborsOf st.G.edges a.unique_id
    if h : nbrs = [] then st
    else
      let partner := nbrs.get
        ⟨o.neighborIdx a.unique_id % nbrs.length, Nat.mod_lt _ (List.length_pos.mpr h)⟩
      if getStrengthD st.G.edges a.unique_id partner > 3/5 then
        match getNodeAgent st partner with
        | some pa =>
          if a.resources + pa.resources > st.project_resource_threshold then
            { st with successful_projects := st.successful_projects ++ [(a.unique_id, partner)] }
          else st
        | none => st
      else st
  else st

/-- `GovernanceAgent.step`: collaboration attempt, then project
proposal, reading the live agent with identifier `i` (a no-op when no
such live agent exists). -/
def agentStep (o : Oracle) (i : AgentId) (st : ModelState) : ModelState :=
  match st.agent_set.find? (fun x => x.unique_id == i) with
  | none => st
  | some a => propose_joint_project o a (attempt_new_collaboration o a st)

/-- Activate the agents named by the oracle's shuffled order, left to
right. -/
def activateAll (o : Oracle) (st : ModelState) : ModelState :=
  o.order.foldl (fun s i => agentStep o i s) st

/-- `self.schedule.step()` (mesa `RandomActivation`): activate every
scheduled agent in a shuffled order, then advance the step counter. -/
def scheduleStep (o : Oracle) (st : ModelState) : ModelState :=
  let st1 := activateAll o st
  { st1 with steps := st1.steps + 1 }

/-- The truthiness-and-equality guard
`if self.midpoint_removal_step and self.schedule.steps == self.midpoint_removal_step`
(`0` is falsy in Python). -/
def removalDue (st : ModelState) : Bool :=
  match st.midpoint_removal_step with
  | none => false
  | some k => k != 0 && st.steps == k

/-- Lines 206-211 of `GovernanceModel.step`: the scripted broker (EMU)
removal. -/
def applyRemoval (st : ModelState) : ModelState :=
  if removalDue st then
    match st.agent_set.find? (fun a => a.is_emu) with
    | none => st
    | some emu =>
      { st with
        agent_set := st.agent_set.filter (fun a => a.unique_id != emu.unique_id),
        G := st.G.remove_node emu.unique_id }
  else st

/-- Update one forum attendee pair: strengthen an existing edge by
`0.1` clamped at `1.0`, or create it at `0.1`.  The source mutates the
edge attribute in place, so no node is inserted in the first branch;
in the second branch both endpoints are live agents and hence already
nodes, and `add_edge` keeps the bookkeeping exact anyway. -/
def forumPair (G : NxGraph) (a b : AgentId) : NxGraph :=
  if G.has_edge a b then G.updStrength a b (fun s => min 1 (s + 1/10))
  else G.add_edge a b (1/10)

/-- All unordered attendee pairs `(i, j)` with `i < j`, in the loop
order of the source. -/
def forumAllPairs : List AgentId → NxGraph → NxGraph
  | [], G => G
  | a :: rest, G => forumAllPairs rest (rest.foldl (fun acc b => forumPair acc a b) G)

/-- `GovernanceModel.trigger_forum_event`. -/
def trigger_forum_event (o : Oracle) (st : ModelState) : ModelState :=
  if o.forumDraw < st.forum_frequency then
    match st.agent_set.find? (fun a => a.is_catalyst) with
    | none => st
    | some catalyst =>
      let attendees := catalyst :: st.agent_set.filter
        (fun a => a.unique_id != catalyst.unique_id && decide (o.attendDraw a.unique_id < a.commitment))
      { st with G := forumAllPairs (attendees.map (fun a => a.unique_id)) st.G }
  else st

/-- `GovernanceModel.link_decay`. -/
def link_decay (st : ModelState) : ModelState :=
  { st with G := { st.G with edges := st.G.edges.map (fun e =>
      { e with relationship_strength := e.relationship_strength * (1 - st.link_decay_rate) }) } }

/-- The clamped project reward on an edge: `min(1.0, s + 0.2)`. -/
def projBoost (s : ℚ) : ℚ := min 1 (s + 1/5)

/-- `agent.resources += d` applied to the agent with identifier `i`. -/
def updResources (l : List GovernanceAgent) (i : AgentId) (d : ℚ) : List GovernanceAgent :=
  l.map (fun a => if a.unique_id == i then { a with resources := a.resources + d } else a)

/-- The body of the loop of `GovernanceModel.execute_joint_projects`
for one queued pair: fetch both node agents (a missing node raises a
`KeyError`, modelled as `none`), award `10` resources to each, and
strengthen the edge if it still exists. -/
def execPair (st : ModelState) (p : AgentId × AgentId) : Option ModelState :=
  match getNodeAgent st p.1 with
  | none => none
  | some _ =>
    match getNodeAgent st p.2 with
    | none => none
    | some _ =>
      let st1 := { st with agent_set := updResources (updResources st.agent_set p.1 10) p.2 10 }
      some (if st1.G.has_edge p.1 p.2 then { st1 with G := st1.G.updStrength p.1 p.2 projBoost } else st1)

/-- The loop of `execute_joint_projects` over the queued pairs. -/
def goExec : List (AgentId × AgentId) → ModelState → Option ModelState
  | [], st => some st
  | p :: rest, st =>
    match execPair st p with
    | none => none
    | some st1 => goExec rest st1

/-- `GovernanceModel.execute_joint_projects`: process every queued pair
in order, then clear the queue. -/
def execute_joint_projects (st : ModelState) : Option ModelState :=
  (goExec st.successful_projects st).map (fun st1 => { st1 with successful_projects := [] })

/-- `nx.density(G)`: `0` for an edgeless graph or fewer than two nodes,
else `2m / (n (n − 1))`. -/
def nxDensity (G : NxGraph) : ℚ :=
  if G.edges.length = 0 ∨ G.nodes.length ≤ 1 then 0
  else (2 * G.edges.length) / ((G.nodes.length : ℚ) * ((G.nodes.length : ℚ) - 1))

/-- Count the unordered pairs of the given vertices joined by an edge. -/
def connectedPairs (es : List Edge) : List AgentId → Nat
  | [] => 0
  | b :: rest => (rest.filter (fun c => es.any (fun e => matchesE e b c))).length + connectedPairs es rest

/-- Number of unordered neighbour pairs of `a` joined by an edge
(triangle count through `a`). -/
def trianglesThrough (es : List Edge) (a : AgentId) : Nat :=
  connectedPairs es (neighborsOf es a)

/-- `nx.clustering` for one node: `2T / (k (k − 1))`, `0` when the
degree is below two. -/
def localClustering (es : List Edge) (a : AgentId) : ℚ :=
  let k := (neighborsOf es a).length
  if k < 2 then 0 else (2 * trianglesThrough es a) / ((k : ℚ) * ((k : ℚ) - 1))

/-- `nx.average_clustering(G)`: the mean of the local coefficients; on
the empty graph the division by `len(c)` raises `ZeroDivisionError`,
modelled as `none`. -/
def averageClustering (G : NxGraph) : Option ℚ :=
  if G.nodes.length = 0 then none
  else some ((G.nodes.map (localClustering G.edges)).sum / (G.nodes.length : ℚ))

/-- One breadth step of the reachable set. -/
def expandOnce (es : List Edge) (acc : List AgentId) : List AgentId :=
  acc ++ (((acc.flatMap (neighborsOf es)).filter (fun v => !(acc.contains v))).dedup)

/-- The connected component of `a`, by iterating the breadth step a
number of times bounded by the node count. -/
def componentOf (G : NxGraph) (a : AgentId) : List AgentId :=
  (((expandOnce G.edges)^[G.nodes.length] [a]).filter (fun v => G.nodes.contains v)).dedup

/-- `len(max(nx.connected_components(G), key=len)) if G.nodes else 0`. -/
def largestCCSize (G : NxGraph) : Nat :=
  (G.nodes.map (fun a => (componentOf G a).length)).foldr max 0

/-- Evaluate the model reporters of the `DataCollector` on the current
state; `none` when the clustering reporter raises on the empty graph. -/
def collectModelVars (st : ModelState) : Option Snapshot :=
  match averageClustering st.G with
  | none => none
  | some c =>
    some { network_density := nxDensity st.G,
           average_clustering := c,
           number_of_active_edges := st.G.edges.length,
           successful_projects := st.successful_projects.length,
           largest_cc := largestCCSize st.G }

/-- `self.datacollector.collect(self)`: append one model-level row. -/
def recordSnapshot (st : ModelState) : Option ModelState :=
  (collectModelVars st).map (fun snap => { st with model_vars := st.model_vars ++ [snap] })

/-- The phases of `GovernanceModel.step` before project execution, in
source order: scheduler (activations + counter), scripted removal,
forum event, link decay. -/
def preExec (o : Oracle) (st : ModelState) : ModelState :=
  link_decay (trigger_forum_event o (applyRemoval (scheduleStep o st)))

/-- `GovernanceModel.step`, line by line: `self.schedule.step()`, the
scripted removal, `trigger_forum_event`, `link_decay`,
`execute_joint_projects`, `datacollector.collect`; `none` when an
unhandled exception aborts the step. -/
def modelStep (o : Oracle) (st : ModelState) : Option ModelState :=
  (execute_joint_projects (preExec o st)).bind recordSnapshot

/-- The per-step transition in the order the specification asserts it
(advance counter, scheduled events, forum, decay, activations, project
execution, snapshot).  This definition follows the words of the
specification and exists only to be compared with `modelStep`. -/
def stepSpecOrdered (o : Oracle) (st : ModelState) : Option ModelState :=
  let st1 := { st with steps := st.steps + 1 }
  let st2 := applyRemoval st1
  let st3 := trigger_forum_event o st2
  let st4 := link_decay st3
  let st5 := activateAll o st4
  (execute_joint_projects st5).bind recordSnapshot

/-- The random draws `GovernanceModel.__init__` may consume: six unit
draws per created agent (base attributes plus per-type overrides, in
call order), the choices of the EMU and catalyst agents, and the two
`random.choice` calls of each of the three bridging attempts (choices
are indices reduced modulo the population size). -/
structure InitOracle where
  u1 : Nat → ℚ
  u2 : Nat → ℚ
  u3 : Nat → ℚ
  u4 : Nat → ℚ
  u5 : Nat → ℚ
  u6 : Nat → ℚ
  emuIdx : Nat
  catalystIdx : Nat
  bridgeA : Nat → Nat
  bridgeB : Nat → Nat

/-- `random.uniform(a, b)` driven by the unit draw `u`. -/
def uniformDraw (a b u : ℚ) : ℚ := a + (b - a) * u

/-- The per-type counts and parameters `GovernanceModel.__init__`
receives. -/
structure ModelParams where
  num_agents_per_type : AgentType → Nat
  link_decay_rate : ℚ
  forum_frequency : ℚ
  project_resource_threshold : ℚ
  midpoint_removal_step : Option Nat

/-- The iteration order `for agent_type in AgentType`. -/
def typeOrder : List AgentType :=
  [AgentType.GOVERNMENT, AgentType.CSO, AgentType.PRIVATE_ENTERPRISE, AgentType.ACADEMIC]

/-- One agent of `create_agents`: the base uniform draws followed by
the per-type overriding draws, with the source's literal ranges. -/
def mkAgent (o : InitOracle) (idx : Nat) (t : AgentType) : GovernanceAgent :=
  let resources := uniformDraw 10 50 (o.u1 idx)
  let commitment := uniformDraw (1/5) (4/5) (o.u2 idx)
  let motivation_profile := uniformDraw (1/5) (4/5) (o.u3 idx)
  match t with
  | AgentType.CSO =>
    { unique_id := idx, agent_type := t,
      resources := uniformDraw 10 30 (o.u5 idx),
      commitment := uniformDraw (7/10) (9/10) (o.u4 idx),
      motivation_profile := uniformDraw (4/5) (9/10) (o.u6 idx) }
  | AgentType.GOVERNMENT =>
    { unique_id := idx, agent_type := t, resources := resources,
      commitment := uniformDraw (1/5) (1/2) (o.u4 idx),
      motivation_profile := motivation_profile }
  | AgentType.PRIVATE_ENTERPRISE =>
    { unique_id := idx, agent_type := t,
      resources := uniformDraw 50 100 (o.u4 idx),
      commitment := commitment,
      motivation_profile := uniformDraw (1/10) (3/10) (o.u5 idx) }
  | AgentType.ACADEMIC =>
    { unique_id := idx, agent_type := t, resources := resources,
      commitment := uniformDraw (4/5) 1 (o.u4 idx),
      motivation_profile := motivation_profile }

/-- The creation loop of `create_agents`: for each type in enum order,
create the configured number of agents; mesa assigns consecutive
`unique_id`s starting at `1`. -/
def mkAgentsGo (o : InitOracle) (p : ModelParams) : List AgentType → Nat → List GovernanceAgent
  | [], _ => []
  | t :: ts, start =>
    ((List.range (p.num_agents_per_type t)).map (fun j => mkAgent o (start + j) t)) ++
      mkAgentsGo o p ts (start + p.num_agents_per_type t)

/-- Designation of the special agents at the end of `create_agents`:
a random government agent becomes the EMU (commitment `0.95`), a random
academic agent becomes the catalyst; skipped when the respective type
is unpopulated. -/
def designateRoles (o : InitOracle) (agents : List GovernanceAgent) : List GovernanceAgent :=
  let govt := agents.filter (fun a => a.agent_type == AgentType.GOVERNMENT)
  let step1 :=
    if h : govt = [] then agents
    else
      let emu := govt.get ⟨o.emuIdx % govt.length, Nat.mod_lt _ (List.length_pos.mpr h)⟩
      agents.map (fun a =>
        if a.unique_id == emu.unique_id then { a with commitment := 19/20, is_emu := true } else a)
  let academics := step1.filter (fun a => a.agent_type == AgentType.ACADEMIC)
  if h : academics = [] then step1
  else
    let cat := academics.get ⟨o.catalystIdx % academics.length, Nat.mod_lt _ (List.length_pos.mpr h)⟩
    step1.map (fun a => if a.unique_id == cat.unique_id then { a with is_catalyst := true } else a)

/-- The clique loop of `initialize_network`: connect every pair of the
given ids at strength `0.7`. -/
def addClique : List AgentId → NxGraph → NxGraph
  | [], G => G
  | a :: rest, G => addClique rest (rest.foldl (fun acc b => acc.add_edge a b (7/10)) G)

/-- The three bridging attempts of `initialize_network`: choose two
random agents and connect them at strength `0.1` when their types
differ.  (`random.choice` on an empty population would raise in the
source; no claim concerns that case and the attempt is skipped.) -/
def addBridges (o : InitOracle) (agents : List GovernanceAgent) (G : NxGraph) : NxGraph :=
  (List.range 3).foldl (fun acc k =>
    if h : agents = [] then acc
    else
      let a1 := agents.get ⟨o.bridgeA k % agents.length, Nat.mod_lt _ (List.length_pos.mpr h)⟩
      let a2 := agents.get ⟨o.bridgeB k % agents.length, Nat.mod_lt _ (List.length_pos.mpr h)⟩
      if a1.agent_type != a2.agent_type then acc.add_edge a1.unique_id a2.unique_id (1/10)
      else acc) G

/-- `GovernanceModel.__init__`: create the agents (adding one node per
agent), designate the roles, build the clique-plus-bridges initial
network, and initialize the bookkeeping fields. -/
def initModel (p : ModelParams) (o : InitOracle) : ModelState :=
  let agents := designateRoles o (mkAgentsGo o p typeOrder 1)
  let G0 : NxGraph := { nodes := agents.map (fun a => a.unique_id), edges := [] }
  let G1 := typeOrder.foldl (fun acc t =>
    addClique ((agents.filter (fun a => a.agent_type == t)).map (fun a => a.unique_id)) acc) G0
  let G2 := addBridges o agents G1
  { agent_set := agents, G := G2, successful_projects := [], steps := 0,
    link_decay_rate := p.link_decay_rate, forum_frequency := p.forum_frequency,
    project_resource_threshold := p.project_resource_threshold,
    midpoint_removal_step := p.midpoint_removal_step, model_vars := [] }

/-- Modelled from the spec: the weighted sum
`Σ (2*(i+1) − n − 1) * r[i]` of the Gini formula, accumulating the
index `i`. -/
def giniWeighted (n : ℚ) : Nat → List ℚ → ℚ
  | _, [] => 0
  | i, r :: rest => (2 * ((i : ℚ) + 1) - n - 1) * r + giniWeighted n (i + 1) rest

/-- Modelled from the spec: the Gini coefficient of a list of values,
missing from the `DataCollector` of `src/governance_model.py` (the
spec's metrics section defines it over the ascending-sorted values,
with value `0` for `n ≤ 1` or zero total). -/
def gini (xs : List ℚ) : ℚ :=
  let s := xs.insertionSort (· ≤ ·)
  if s.length ≤ 1 ∨ s.sum = 0 then 0
  else giniWeighted (s.length : ℚ) 0 s / ((s.length : ℚ) * s.sum)

/-- Modelled from the spec: the Gini-of-resources model reporter over
all live agents, missing from the `DataCollector` of
`src/governance_model.py`. -/
def giniOfResources (st : ModelState) : ℚ :=
  gini (st.agent_set.map (fun a => a.resources))

/-- Modelled from the spec: the error taxonomy of `Construct(config)`;
`src/governance_model.py` performs no construction validation (the
validating model variant is not under `src/`). -/
inductive ConfigurationError where
  | invalidConfiguration
  deriving DecidableEq, Repr

/-- Modelled from the spec: the arguments of `Construct(config)`, with
per-type counts as integers so that negative counts are expressible. -/
structure SpecConfig where
  counts : AgentType → Int
  link_decay_rate : ℚ
  forum_frequency : ℚ
  project_resource_threshold : ℚ
  midpoint_removal_step : Option Nat

/-- Modelled from the spec: a configuration is valid when every
per-type count is non-negative and both probability parameters lie in
`[0, 1]`. -/
def ValidConfig (c : SpecConfig) : Prop :=
  (∀ t, 0 ≤ c.counts t) ∧
  (0 ≤ c.link_decay_rate ∧ c.link_decay_rate ≤ 1) ∧
  (0 ≤ c.forum_frequency ∧ c.forum_frequency ≤ 1)

instance (c : SpecConfig) : Decidable (ValidConfig c) := by
  unfold ValidConfig; infer_instance

/-- Modelled from the spec: `Construct(config)` — fail with
`ConfigurationError` on an invalid configuration, otherwise build the
model instance (via the source's `__init__` embedding). -/
def constructModel (c : SpecConfig) (o : InitOracle) : Except ConfigurationError ModelState :=
  if ValidConfig c then
    Except.ok (initModel
      { num_agents_per_type := fun t => (c.counts t).toNat,
        link_decay_rate := c.link_decay_rate,
        forum_frequency := c.forum_frequency,
        project_resource_threshold := c.project_resource_threshold,
        midpoint_removal_step := c.midpoint_removal_step } o)
  else Except.error ConfigurationError.invalidConfiguration

/-- Modelled from the spec: one step of the shared seeded generator (a
64-bit linear congruential generator standing in for the single
pseudo-random stream; the spec promises reproducibility for a fixed
seed, not a particular generator). -/
def lcgNext (s : Nat) : Nat := (6364136223846793005 * s + 1442695040888963407) % (2 ^ 64)

/-- Modelled from the spec: the `i`-th value of the seeded stream. -/
def lcgVal (seed : Nat) : Nat → Nat
  | 0 => lcgNext (seed + 1)
  | Nat.succ k => lcgNext (lcgVal seed k)

/-- Modelled from the spec: the `i`-th unit draw of the seeded
stream. -/
def unitDraw (seed i : Nat) : ℚ := (lcgVal seed i : ℚ) / (2 ^ 64 : ℚ)

/-- Modelled from the spec: every construction draw derived from the
single seeded generator. -/
def initOracleOfSeed (seed : Nat) : InitOracle :=
  { u1 := fun i => unitDraw seed (8 * i),
    u2 := fun i => unitDraw seed (8 * i + 1),
    u3 := fun i => unitDraw seed (8 * i + 2),
    u4 := fun i => unitDraw seed (8 * i + 3),
    u5 := fun i => unitDraw seed (8 * i + 4),
    u6 := fun i => unitDraw seed (8 * i + 5),
    emuIdx := lcgVal seed 6,
    catalystIdx := lcgVal seed 7,
    bridgeA := fun k => lcgVal seed (100 + 2 * k),
    bridgeB := fun k => lcgVal seed (101 + 2 * k) }

/-- Modelled from the spec: every step draw derived from the single
seeded generator, the activation order being the shuffle drawn for this
step (represented by its outcome over the live agents). -/
def stepOracleOfSeed (seed : Nat) (st : ModelState) : Oracle :=
  { order := st.agent_set.map (fun a => a.unique_id),
    collabDraw := fun i => unitDraw seed (1000 + 8 * i),
    partnerIdx := fun i => lcgVal seed (1000 + 8 * i + 1),
    acceptDraw := fun i => unitDraw seed (1000 + 8 * i + 2),
    proposeDraw := fun i => unitDraw seed (1000 + 8 * i + 3),
    neighborIdx := fun i => lcgVal seed (1000 + 8 * i + 4),
    forumDraw := unitDraw seed 999,
    attendDraw := fun i => unitDraw seed (1000 + 8 * i + 5) }

/-- Modelled from the spec: construct a model from a configuration and
seed, run one step, and return the recorded step-0 model-level
snapshot (`none` when construction fails or the step raises). -/
def runSnap0 (c : SpecConfig) (seed : Nat) : Option Snapshot :=
  match constructModel c (initOracleOfSeed seed) with
  | Except.error _ => none
  | Except.ok m => (modelStep (stepOracleOfSeed seed m) m).bind (fun st => st.model_vars.getLast?)

/-- The snapshot `collect` records for a state whose graph has at least
one node. -/
def snapOf (A : ModelState) : Snapshot :=
  { network_density := nxDensity A.G,
    average_clustering := (A.G.nodes.map (localClustering A.G.edges)).sum / (A.G.nodes.length : ℚ),
    number_of_active_edges := A.G.edges.length,
    successful_projects := A.successful_projects.length,
    largest_cc := largestCCSize A.G }

lemma recordSnapshot_eq_some (A : ModelState) (h : A.G.nodes.length ≠ 0) :
    recordSnapshot A = some { A with model_vars := A.model_vars ++ [snapOf A] } := by
  simp only [recordSnapshot, collectModelVars, averageClustering, if_neg h, Option.map_some', snapOf]

lemma recordSnapshot_none (A : ModelState) (h : A.G.nodes.length = 0) :
    recordSnapshot A = none := by
  simp only [recordSnapshot, collectModelVars, averageClustering, if_pos h, Option.map_none']

lemma recordSnapshot_inj (A B : ModelState) (hA : A.G.nodes.length ≠ 0)
    (h : recordSnapshot A = recordSnapshot B) : A.agent_set = B.agent_set ∧ A.G = B.G := by
  by_cases hB : B.G.nodes.length = 0
  · rw [recordSnapshot_eq_some A hA, recordSnapshot_none B hB] at h
    exact absurd h (by simp)
  · rw [recordSnapshot_eq_some A hA, recordSnapshot_eq_some B hB, Option.some_inj] at h
    have h1 := congrArg ModelState.agent_set h
    have h2 := congrArg ModelState.G h
    exact ⟨h1, h2⟩

/-- Two-agent state used to separate the code's phase order from the
specification's: two unconnected government agents with full commitment
and motivation, decay rate `1/2`, forum frequency `0`. -/
def c1Agent1 : GovernanceAgent :=
  { unique_id := 1, agent_type := AgentType.GOVERNMENT, resources := 60,
    commitment := 1, motivation_profile := 1 }

def c1Agent2 : GovernanceAgent :=
  { unique_id := 2, agent_type := AgentType.GOVERNMENT, resources := 60,
    commitment := 1, motivation_profile := 1 }

def c1State : ModelState :=
  { agent_set := [c1Agent1, c1Agent2],
    G := { nodes := [1, 2], edges := [] },
    successful_projects := [], steps := 0,
    link_decay_rate := 1/2, forum_frequency := 0,
    project_resource_threshold := 100, midpoint_removal_step := none,
    model_vars := [] }

/-- A realizable draw for one step on `c1State`: agent `1` attempts a
collaboration (and succeeds), nothing else fires. -/
def c1Oracle : Oracle :=
  { order := [1, 2],
    collabDraw := fun i => if i == 1 then 0 else 1,
    partnerIdx := fun _ => 0,
    acceptDraw := fun _ => 0,
    proposeDraw := fun _ => 1,
    neighborIdx := fun _ => 0,
    forumDraw := 1,
    attendDraw := fun _ => 1 }

/-- `c1State` after one code-ordered step up to project execution: the
collaboration edge was created at `0.05` and then decayed to `0.025`. -/
def c1CodeResult : ModelState :=
  { agent_set := [c1Agent1, c1Agent2],
    G := { nodes := [1, 2], edges := [⟨1, 2, 1/40⟩] },
    successful_projects := [], steps := 1,
    link_decay_rate := 1/2, forum_frequency := 0,
    project_resource_threshold := 100, midpoint_removal_step := none,
    model_vars := [] }

/-- `c1State` after one specification-ordered step up to project
execution: decay ran before the activation, so the fresh collaboration
edge keeps strength `0.05`. -/
def c1SpecResult : ModelState :=
  { agent_set := [c1Agent1, c1Agent2],
    G := { nodes := [1, 2], edges := [⟨1, 2, 1/20⟩] },
    successful_projects := [], steps := 1,
    link_decay_rate := 1/2, forum_frequency := 0,
    project_resource_threshold := 100, midpoint_removal_step := none,
    model_vars := [] }

lemma c1_agent1_act :
    agentStep c1Oracle 1 c1State =
      { c1State with G := { nodes := [1, 2], edges := [⟨1, 2, 1/20⟩] } } := by
  norm_num [agentStep, attempt_new_collaboration, propose_joint_project, getNodeAgent,
    neighborsOf, getStrengthD, matchesE, NxGraph.has_edge, NxGraph.add_edge, NxGraph.addNode,
    c1State, c1Oracle, c1Agent1, c1Agent2, List.filterMap_cons, List.filterMap_nil,
    List.getElem_cons_zero, List.getElem_cons_succ, List.find?_cons, List.find?_nil]

lemma c1_agent2_act :
    agentStep c1Oracle 2 { c1State with G := { nodes := [1, 2], edges := [⟨1, 2, 1/20⟩] } } =
      { c1State with G := { nodes := [1, 2], edges := [⟨1, 2, 1/20⟩] } } := by
  norm_num [agentStep, attempt_new_collaboration, propose_joint_project, getNodeAgent,
    neighborsOf, getStrengthD, matchesE, NxGraph.has_edge, NxGraph.add_edge, NxGraph.addNode,
    c1State, c1Oracle, c1Agent1, c1Agent2, List.filterMap_cons, List.filterMap_nil,
    List.getElem_cons_zero, List.getElem_cons_succ, List.find?_cons, List.find?_nil]

lemma c1_activate : activateAll c1Oracle c1State =
    { c1State with G := { nodes := [1, 2], edges := [⟨1, 2, 1/20⟩] } } := by
  rw [activateAll, show c1Oracle.order = [1, 2] from rfl]
  simp only [List.foldl_cons, List.foldl_nil]
  rw [c1_agent1_act, c1_agent2_act]

lemma c1_code_exec : execute_joint_projects (preExec c1Oracle c1State) = some c1CodeResult := by
  rw [preExec, scheduleStep, c1_activate]
  norm_num [applyRemoval, removalDue, trigger_forum_event, link_decay,
    execute_joint_projects, goExec, c1State, c1CodeResult, c1Oracle, c1Agent1, c1Agent2,
    List.find?_cons, List.find?_nil]

lemma attempt_shape (o : Oracle) (a : GovernanceAgent) (st : ModelState) :
    ∃ G', attempt_new_collaboration o a st = { st with G := G' } := by
  simp only [attempt_new_collaboration]
  repeat' split
  all_goals exact ⟨_, rfl⟩

lemma propose_shape (o : Oracle) (a : GovernanceAgent) (st : ModelState) :
    ∃ q, propose_joint_project o a st = { st with successful_projects := q } := by
  simp only [propose_joint_project]
  repeat' split
  all_goals exact ⟨_, rfl⟩

lemma agentStep_shape (o : Oracle) (i : AgentId) (st : ModelState) :
    ∃ G' q, agentStep o i st = { st with G := G', successful_projects := q } := by
  unfold agentStep
  split
  · exact ⟨st.G, st.successful_projects, rfl⟩
  · rename_i a _
    obtain ⟨G1, h1⟩ := attempt_shape o a st
    obtain ⟨q, h2⟩ := propose_shape o a { st with G := G1 }
    rw [h1, h2]
    exact ⟨G1, q, rfl⟩

lemma foldl_agentStep_shape (o : Oracle) :
    ∀ (l : List AgentId) (st : ModelState),
      ∃ G' q, l.foldl (fun s i => agentStep o i s) st = { st with G := G', successful_projects := q }
  | [], st => ⟨st.G, st.successful_projects, rfl⟩
  | i :: l, st => by
    simp only [List.foldl_cons]
    obtain ⟨G1, q1, h1⟩ := agentStep_shape o i st
    obtain ⟨G2, q2, h2⟩ := foldl_agentStep_shape o l { st with G := G1, successful_projects := q1 }
    rw [h1, h2]
    exact ⟨G2, q2, rfl⟩

lemma activateAll_shape (o : Oracle) (st : ModelState) :
    ∃ G' q, activateAll o st = { st with G := G', successful_projects := q } :=
  foldl_agentStep_shape o o.order st

lemma applyRemoval_shape (st : ModelState) :
    ∃ A G', applyRemoval st = { st with agent_set := A, G := G' } := by
  simp only [applyRemoval]
  repeat' split
  all_goals exact ⟨_, _, rfl⟩

lemma forum_shape (o : Oracle) (st : ModelState) :
    ∃ G', trigger_forum_event o st = { st with G := G' } := by
  simp only [trigger_forum_event]
  repeat' split
  all_goals exact ⟨_, rfl⟩

lemma preExec_shape (o : Oracle) (st : ModelState) :
    ∃ A G' q, preExec o st =
      { st with agent_set := A, G := G', successful_projects := q, steps := st.steps + 1 } := by
  unfold preExec scheduleStep
  obtain ⟨G1, q1, h1⟩ := activateAll_shape o st
  rw [h1]
  obtain ⟨A2, G2, h2⟩ := applyRemoval_shape
    { st with G := G1, successful_projects := q1, steps := st.steps + 1 }
  rw [h2]
  obtain ⟨G3, h3⟩ := forum_shape o
    { st with agent_set := A2, G := G2, successful_projects := q1, steps := st.steps + 1 }
  rw [h3]
  exact ⟨A2, _, q1, rfl⟩

lemma execPair_shape (st : ModelState) (p : AgentId × AgentId) (st' : ModelState)
    (h : execPair st p = some st') :
    ∃ A G', st' = { st with agent_set := A, G := G' } := by
  simp only [execPair] at h
  split at h
  · exact absurd h (by simp)
  split at h
  · exact absurd h (by simp)
  rw [Option.some_inj] at h
  subst h
  split
  · exact ⟨_, _, rfl⟩
  · exact ⟨_, st.G, rfl⟩

lemma goExec_shape :
    ∀ (q : List (AgentId × AgentId)) (st st' : ModelState), goExec q st = some st' →
      ∃ A G', st' = { st with agent_set := A, G := G' }
  | [], st, st', h => by
    simp only [goExec, Option.some_inj] at h
    exact ⟨st.agent_set, st.G, by rw [← h]⟩
  | p :: rest, st, st', h => by
    simp only [goExec] at h
    split at h
    · exact absurd h (by simp)
    · rename_i st1 hp
      obtain ⟨A1, G1, h1⟩ := execPair_shape st p st1 hp
      obtain ⟨A2, G2, h2⟩ := goExec_shape rest st1 st' h
      subst h1 h2
      exact ⟨A2, G2, rfl⟩

lemma execute_shape (st st' : ModelState) (h : execute_joint_projects st = some st') :
    ∃ A G', st' = { st with agent_set := A, G := G', successful_projects := [] } := by
  unfold execute_joint_projects at h
  cases hg : goExec st.successful_projects st with
  | none => rw [hg] at h; exact absurd h (by simp)
  | some st1 =>
    rw [hg] at h
    simp only [Option.map_some', Option.some_inj] at h
    obtain ⟨A, G', h1⟩ := goExec_shape st.successful_projects st st1 hg
    subst h1
    exact ⟨A, G', by rw [← h]⟩

/-- The state `GovernanceModel.step` holds right after project
execution, in terms of the starting state. -/
def postState (st : ModelState) (A : List GovernanceAgent) (G2 : NxGraph) : ModelState :=
  { st with agent_set := A, G := G2, successful_projects := [], steps := st.steps + 1 }

lemma modelStep_some_shape (o : Oracle) (st st' : ModelState) (h : modelStep o st = some st') :
    ∃ A G2, st' = { postState st A G2 with model_vars := st.model_vars ++ [snapOf (postState st A G2)] } := by
  unfold modelStep at h
  cases hE : execute_joint_projects (preExec o st) with
  | none => rw [hE, Option.none_bind] at h; exact absurd h (by simp)
  | some st1 =>
    rw [hE, Option.some_bind] at h
    obtain ⟨A0, G0, q0, hpre⟩ := preExec_shape o st
    rw [hpre] at hE
    obtain ⟨A, G2, h1⟩ := execute_shape _ st1 hE
    have h1' : st1 = postState st A G2 := h1
    subst h1'
    by_cases hn : (postState st A G2).G.nodes.length = 0
    · rw [recordSnapshot_none _ hn] at h
      exact absurd h (by simp)
    · rw [recordSnapshot_eq_some _ hn, Option.some_inj] at h
      exact ⟨A, G2, h.symm⟩

lemma modelStep_steps (o : Oracle) (st st' : ModelState) (h : modelStep o st = some st') :
    st'.steps = st.steps + 1 := by
  obtain ⟨A, G2, h1⟩ := modelStep_some_shape o st st' h
  subst h1
  rfl

lemma c1_removal : applyRemoval { c1State with steps := c1State.steps + 1 } =
    { c1State with steps := 1 } := by
  norm_num [applyRemoval, removalDue, c1State]

lemma c1_forum : trigger_forum_event c1Oracle { c1State with steps := 1 } =
    { c1State with steps := 1 } := by
  norm_num [trigger_forum_event, c1Oracle, c1State]

lemma c1_decay : link_decay { c1State with steps := 1 } = { c1State with steps := 1 } := by
  norm_num [link_decay, c1State]

lemma c1_agent1_act2 : agentStep c1Oracle 1 { c1State with steps := 1 } =
    { c1State with G := { nodes := [1, 2], edges := [⟨1, 2, 1/20⟩] }, steps := 1 } := by
  norm_num [agentStep, attempt_new_collaboration, propose_joint_project, getNodeAgent,
    neighborsOf, getStrengthD, matchesE, NxGraph.has_edge, NxGraph.add_edge, NxGraph.addNode,
    c1State, c1Oracle, c1Agent1, c1Agent2, List.filterMap_cons, List.filterMap_nil,
    List.getElem_cons_zero, List.getElem_cons_succ, List.find?_cons, List.find?_nil]

lemma c1_agent2_act2 :
    agentStep c1Oracle 2 { c1State with G := { nodes := [1, 2], edges := [⟨1, 2, 1/20⟩] }, steps := 1 } =
      { c1State with G := { nodes := [1, 2], edges := [⟨1, 2, 1/20⟩] }, steps := 1 } := by
  norm_num [agentStep, attempt_new_collaboration, propose_joint_project, getNodeAgent,
    neighborsOf, getStrengthD, matchesE, NxGraph.has_edge, NxGraph.add_edge, NxGraph.addNode,
    c1State, c1Oracle, c1Agent1, c1Agent2, List.filterMap_cons, List.filterMap_nil,
    List.getElem_cons_zero, List.getElem_cons_succ, List.find?_cons, List.find?_nil]

lemma c1_activate2 : activateAll c1Oracle { c1State with steps := 1 } =
    { c1State with G := { nodes := [1, 2], edges := [⟨1, 2, 1/20⟩] }, steps := 1 } := by
  rw [activateAll, show c1Oracle.order = [1, 2] from rfl]
  simp only [List.foldl_cons, List.foldl_nil]
  rw [c1_agent1_act2, c1_agent2_act2]

lemma c1_exec2 :
    execute_joint_projects { c1State with G := { nodes := [1, 2], edges := [⟨1, 2, 1/20⟩] }, steps := 1 } =
      some c1SpecResult := by
  norm_num [execute_joint_projects, goExec, c1State, c1SpecResult]

lemma c1_spec_step : stepSpecOrdered c1Oracle c1State = recordSnapshot c1SpecResult := by
  simp only [stepSpecOrdered]
  rw [c1_removal, c1_forum, c1_decay, c1_activate2, c1_exec2, Option.some_bind]

lemma c1_code_step : modelStep c1Oracle c1State = recordSnapshot c1CodeResult := by
  rw [modelStep, c1_code_exec, Option.some_bind]

/-- C1 (counterexample): at a realizable two-agent state and draw, one
code step differs from the step the specification describes (the code
activates the agents before the scheduled events, the forum event and
decay, so a collaboration edge created during activation is decayed
within the same step, which the specification's order cannot produce). -/
theorem c1_phase_order_counterexample : modelStep c1Oracle c1State ≠ stepSpecOrdered c1Oracle c1State := by
  intro h
  rw [c1_code_step, c1_spec_step] at h
  have h2 := (recordSnapshot_inj _ _ (by norm_num [c1CodeResult]) h).2
  have h3 := congrArg (fun G => G.edges) h2
  norm_num [c1CodeResult, c1SpecResult] at h3

/-- C1 (amended): every call to `GovernanceModel.step` executes its
phases in this order: all live agents are activated in randomized order
and the step counter then advances (both inside `schedule.step()`),
then the scheduled broker removal is applied if due, then the forum
event runs, then link decay runs, then the pending project queue is
executed and cleared, and finally one metrics snapshot is recorded —
agent activations happen strictly before the scheduled events, the
forum event and decay, not after them; the counter grows by exactly one
per completed step. -/
theorem c1_phase_order_amended :
    (∀ o st, modelStep o st =
      (execute_joint_projects (link_decay (trigger_forum_event o
        (applyRemoval (scheduleStep o st))))).bind recordSnapshot) ∧
    (∀ o st st', modelStep o st = some st' → st'.steps = st.steps + 1) := by
  refine ⟨fun o st => rfl, fun o st st' h => ?_⟩
  obtain ⟨A, G2, h1⟩ := modelStep_some_shape o st st' h
  subst h1
  rfl

/-- C1 (witness): the amended order equation and the counter increment
at the concrete two-agent state. -/
theorem c1_phase_order_witness :
    (modelStep c1Oracle c1State =
      (execute_joint_projects (link_decay (trigger_forum_event c1Oracle
        (applyRemoval (scheduleStep c1Oracle c1State))))).bind recordSnapshot) ∧
    ∃ st', modelStep c1Oracle c1State = some st' ∧ st'.steps = c1State.steps + 1 := by
  refine ⟨c1_phase_order_amended.1 c1Oracle c1State, ?_⟩
  have e1 : modelStep c1Oracle c1State =
      some { c1CodeResult with model_vars := c1CodeResult.model_vars ++ [snapOf c1CodeResult] } := by
    rw [c1_code_step, recordSnapshot_eq_some c1CodeResult (by norm_num [c1CodeResult])]
  exact ⟨_, e1, c1_phase_order_amended.2 c1Oracle c1State _ e1⟩

/-- Two connected government agents whose tie is strong enough
(`0.7 > 0.6`) and rich enough (`60 + 60 > 100`) for a joint project. -/
def c2State : ModelState :=
  { agent_set := [{ unique_id := 1, agent_type := AgentType.GOVERNMENT, resources := 60,
                    commitment := 1, motivation_profile := 1/2 },
                  { unique_id := 2, agent_type := AgentType.GOVERNMENT, resources := 60,
                    commitment := 1, motivation_profile := 1/2 }],
    G := { nodes := [1, 2], edges := [⟨1, 2, 7/10⟩] },
    successful_projects := [], steps := 0,
    link_decay_rate := 1/2, forum_frequency := 0,
    project_resource_threshold := 100, midpoint_removal_step := none,
    model_vars := [] }

/-- A realizable draw on `c2State`: agent `1` proposes the joint
project with its only neighbour, nothing else fires. -/
def c2Oracle : Oracle :=
  { order := [1, 2],
    collabDraw := fun _ => 1,
    partnerIdx := fun _ => 0,
    acceptDraw := fun _ => 1,
    proposeDraw := fun i => if i == 1 then 0 else 1,
    neighborIdx := fun _ => 0,
    forumDraw := 1,
    attendDraw := fun _ => 1 }

/-- `c2State` after activation, decay and project execution: the
project was executed (both agents were paid `10`) and the queue is
empty again. -/
def c2ExecResult : ModelState :=
  { agent_set := [{ unique_id := 1, agent_type := AgentType.GOVERNMENT, resources := 70,
                    commitment := 1, motivation_profile := 1/2 },
                  { unique_id := 2, agent_type := AgentType.GOVERNMENT, resources := 70,
                    commitment := 1, motivation_profile := 1/2 }],
    G := { nodes := [1, 2], edges := [⟨1, 2, 11/20⟩] },
    successful_projects := [], steps := 1,
    link_decay_rate := 1/2, forum_frequency := 0,
    project_resource_threshold := 100, midpoint_removal_step := none,
    model_vars := [] }

lemma c2_agent1_act : agentStep c2Oracle 1 c2State =
    { c2State with successful_projects := [(1, 2)] } := by
  norm_num [agentStep, attempt_new_collaboration, propose_joint_project, getNodeAgent,
    neighborsOf, getStrengthD, matchesE, NxGraph.has_edge, NxGraph.add_edge, NxGraph.addNode,
    c2State, c2Oracle, List.filterMap_cons, List.filterMap_nil,
    List.getElem_cons_zero, List.getElem_cons_succ, List.find?_cons, List.find?_nil]

lemma c2_agent2_act : agentStep c2Oracle 2 { c2State with successful_projects := [(1, 2)] } =
    { c2State with successful_projects := [(1, 2)] } := by
  norm_num [agentStep, attempt_new_collaboration, propose_joint_project, getNodeAgent,
    neighborsOf, getStrengthD, matchesE, NxGraph.has_edge, NxGraph.add_edge, NxGraph.addNode,
    c2State, c2Oracle, List.filterMap_cons, List.filterMap_nil,
    List.getElem_cons_zero, List.getElem_cons_succ, List.find?_cons, List.find?_nil]

lemma c2_activate : activateAll c2Oracle c2State = { c2State with successful_projects := [(1, 2)] } := by
  rw [activateAll, show c2Oracle.order = [1, 2] from rfl]
  simp only [List.foldl_cons, List.foldl_nil]
  rw [c2_agent1_act, c2_agent2_act]

lemma c2_exec_eval : execute_joint_projects (preExec c2Oracle c2State) = some c2ExecResult := by
  rw [preExec, scheduleStep, c2_activate]
  norm_num [applyRemoval, removalDue, trigger_forum_event, link_decay,
    execute_joint_projects, goExec, execPair, getNodeAgent, updResources, projBoost, matchesE,
    NxGraph.has_edge, NxGraph.updStrength, min_def,
    c2State, c2ExecResult, c2Oracle, List.find?_cons, List.find?_nil]

/-- C2 (code_bug): the model-level row recorded at the end of every
step carries `len(successful_projects)` taken after
`execute_joint_projects` has already reset the queue, so the recorded
"Successful Projects" value is `0` at every step — never the cumulative
(nor even the per-step) count of executed projects. -/
theorem c2_recorded_projects_zero (o : Oracle) (st st' : ModelState)
    (h : modelStep o st = some st') :
    ∃ snap, st'.model_vars = st.model_vars ++ [snap] ∧ snap.successful_projects = 0 := by
  obtain ⟨A, G2, h1⟩ := modelStep_some_shape o st st' h
  subst h1
  exact ⟨_, rfl, rfl⟩

/-- C2 (witness): at the concrete failing input a joint project is
executed during the step — both agents' resources rise from `60` to
`70` — and the snapshot recorded at the end of that very step still
shows `0` successful projects. -/
theorem c2_recorded_projects_zero_witness :
    execute_joint_projects (preExec c2Oracle c2State) = some c2ExecResult ∧
    c2ExecResult.agent_set.map (fun a => a.resources) = [70, 70] ∧
    ∃ st', modelStep c2Oracle c2State = some st' ∧
      ∃ snap, st'.model_vars = c2State.model_vars ++ [snap] ∧ snap.successful_projects = 0 := by
  refine ⟨c2_exec_eval, by norm_num [c2ExecResult], ?_⟩
  have e1 : modelStep c2Oracle c2State =
       some { c2ExecResult with model_vars := c2ExecResult.model_vars ++ [snapOf c2ExecResult] } := by
    rw [modelStep, c2_exec_eval, Option.some_bind,
      recordSnapshot_eq_some c2ExecResult (by norm_num [c2ExecResult])]
  exact ⟨_, e1, c2_recorded_projects_zero c2Oracle c2State _ e1⟩

/-- The clamping invariant: every edge strength lies in `[0, 1]`. -/
def EdgeInv (es : List Edge) : Prop :=
  ∀ e ∈ es, 0 ≤ e.relationship_strength ∧ e.relationship_strength ≤ 1

lemma foldl_inv {α β : Type} (P : α → Prop) (f : α → β → α) (hf : ∀ x b, P x → P (f x b)) :
    ∀ (l : List β) (x : α), P x → P (l.foldl f x)
  | [], _, hx => hx
  | b :: l, x, hx => foldl_inv P f hf l (f x b) (hf x b hx)

lemma updStrength_inv (G : NxGraph) (a b : AgentId) (f : ℚ → ℚ)
    (hf : ∀ s, 0 ≤ s → s ≤ 1 → 0 ≤ f s ∧ f s ≤ 1) (h : EdgeInv G.edges) :
    EdgeInv (G.updStrength a b f).edges := by
  intro e he
  simp only [NxGraph.updStrength, List.mem_map] at he
  obtain ⟨e0, he0, rfl⟩ := he
  obtain ⟨h0, h1⟩ := h e0 he0
  split
  · exact hf e0.relationship_strength h0 h1
  · exact ⟨h0, h1⟩

lemma addNode_edges (G : NxGraph) (a : AgentId) : (G.addNode a).edges = G.edges := by
  unfold NxGraph.addNode
  split <;> rfl

lemma add_edge_inv (G : NxGraph) (a b : AgentId) (s : ℚ) (h0 : 0 ≤ s) (h1 : s ≤ 1)
    (h : EdgeInv G.edges) : EdgeInv (G.add_edge a b s).edges := by
  simp only [NxGraph.add_edge]
  have hE : ((G.addNode a).addNode b).edges = G.edges := by rw [addNode_edges, addNode_edges]
  split
  · exact updStrength_inv _ a b _ (fun s _ _ => ⟨h0, h1⟩) (by rw [hE]; exact h)
  · intro e he
    rw [hE] at he
    rcases List.mem_append.mp he with h' | h'
    · exact h e h'
    · rcases List.mem_singleton.mp h' with rfl
      exact ⟨h0, h1⟩

lemma forumPair_inv (G : NxGraph) (a b : AgentId) (h : EdgeInv G.edges) :
    EdgeInv (forumPair G a b).edges := by
  unfold forumPair
  split
  · refine updStrength_inv _ a b _ (fun s hs _ => ⟨?_, min_le_left _ _⟩) h
    exact le_min (by norm_num) (by linarith)
  · exact add_edge_inv _ a b _ (by norm_num) (by norm_num) h

lemma forumAllPairs_inv : ∀ (l : List AgentId) (G : NxGraph), EdgeInv G.edges →
    EdgeInv (forumAllPairs l G).edges
  | [], _, h => h
  | a :: rest, G, h => by
    refine forumAllPairs_inv rest _ ?_
    exact foldl_inv (fun g => EdgeInv g.edges) _ (fun g b hg => forumPair_inv g a b hg) rest G h

lemma forum_inv (o : Oracle) (st : ModelState) (h : EdgeInv st.G.edges) :
    EdgeInv (trigger_forum_event o st).G.edges := by
  simp only [trigger_forum_event]
  repeat' split
  · exact h
  · exact forumAllPairs_inv _ _ h
  · exact h

lemma attempt_inv (o : Oracle) (a : GovernanceAgent) (st : ModelState)
    (h : EdgeInv st.G.edges) : EdgeInv (attempt_new_collaboration o a st).G.edges := by
  simp only [attempt_new_collaboration]
  repeat' split
  all_goals first
  | exact h
  | exact add_edge_inv _ _ _ _ (by norm_num) (by norm_num) h

lemma agentStep_inv (o : Oracle) (i : AgentId) (st : ModelState)
    (h : EdgeInv st.G.edges) : EdgeInv (agentStep o i st).G.edges := by
  unfold agentStep
  split
  · exact h
  · rename_i a _
    obtain ⟨q, hq⟩ := propose_shape o a (attempt_new_collaboration o a st)
    rw [hq]
    exact attempt_inv o a st h

lemma activateAll_inv (o : Oracle) (st : ModelState) (h : EdgeInv st.G.edges) :
    EdgeInv (activateAll o st).G.edges :=
  foldl_inv (fun s => EdgeInv s.G.edges) _ (fun s i hs => agentStep_inv o i s hs) o.order st h

lemma applyRemoval_inv (st : ModelState) (h : EdgeInv st.G.edges) :
    EdgeInv (applyRemoval st).G.edges := by
  simp only [applyRemoval]
  repeat' split
  · exact h
  · intro e he
    exact h e (List.mem_filter.mp he).1
  · exact h

lemma link_decay_inv (st : ModelState) (h0 : 0 ≤ st.link_decay_rate)
    (h1 : st.link_decay_rate ≤ 1) (h : EdgeInv st.G.edges) :
    EdgeInv (link_decay st).G.edges := by
  intro e he
  simp only [link_decay, List.mem_map] at he
  obtain ⟨e0, he0, rfl⟩ := he
  obtain ⟨g0, g1⟩ := h e0 he0
  constructor
  · exact mul_nonneg g0 (by linarith)
  · calc e0.relationship_strength * (1 - st.link_decay_rate) ≤ 1 * 1 :=
        mul_le_mul g1 (by linarith) (by linarith) (by norm_num)
    _ = 1 := by norm_num

lemma execPair_inv (st : ModelState) (p : AgentId × AgentId) (st' : ModelState)
    (h : execPair st p = some st') (hinv : EdgeInv st.G.edges) : EdgeInv st'.G.edges := by
  simp only [execPair] at h
  split at h
  · exact absurd h (by simp)
  split at h
  · exact absurd h (by simp)
  rw [Option.some_inj] at h
  subst h
  split
  · refine updStrength_inv _ _ _ _ (fun s hs _ => ⟨?_, min_le_left _ _⟩) hinv
    exact le_min (by norm_num) (by linarith)
  · exact hinv

lemma goExec_inv : ∀ (q : List (AgentId × AgentId)) (st st' : ModelState),
    goExec q st = some st' → EdgeInv st.G.edges → EdgeInv st'.G.edges
  | [], st, st', h, hinv => by
    simp only [goExec, Option.some_inj] at h
    rw [← h]; exact hinv
  | p :: rest, st, st', h, hinv => by
    simp only [goExec] at h
    split at h
    · exact absurd h (by simp)
    · rename_i st1 hp
      exact goExec_inv rest st1 st' h (execPair_inv st p st1 hp hinv)

lemma execute_inv (st st' : ModelState) (h : execute_joint_projects st = some st')
    (hinv : EdgeInv st.G.edges) : EdgeInv st'.G.edges := by
  unfold execute_joint_projects at h
  cases hg : goExec st.successful_projects st with
  | none => rw [hg] at h; exact absurd h (by simp)
  | some st1 =>
    rw [hg, Option.map_some', Option.some_inj] at h
    rw [← h]
    exact goExec_inv st.successful_projects st st1 hg hinv

lemma scheduleStep_G (o : Oracle) (st : ModelState) :
    (scheduleStep o st).G = (activateAll o st).G := rfl

lemma scheduleStep_rate (o : Oracle) (st : ModelState) :
    (scheduleStep o st).link_decay_rate = st.link_decay_rate := by
  unfold scheduleStep
  obtain ⟨G1, q1, h⟩ := activateAll_shape o st
  rw [h]

lemma applyRemoval_rate (st : ModelState) :
    (applyRemoval st).link_decay_rate = st.link_decay_rate := by
  obtain ⟨A, G2, h⟩ := applyRemoval_shape st
  rw [h]

lemma forum_rate (o : Oracle) (st : ModelState) :
    (trigger_forum_event o st).link_decay_rate = st.link_decay_rate := by
  obtain ⟨G2, h⟩ := forum_shape o st
  rw [h]

lemma preExec_inv (o : Oracle) (st : ModelState) (h0 : 0 ≤ st.link_decay_rate)
    (h1 : st.link_decay_rate ≤ 1) (hinv : EdgeInv st.G.edges) :
    EdgeInv (preExec o st).G.edges := by
  unfold preExec
  apply link_decay_inv
  · rw [forum_rate, applyRemoval_rate, scheduleStep_rate]; exact h0
  · rw [forum_rate, applyRemoval_rate, scheduleStep_rate]; exact h1
  · apply forum_inv
    apply applyRemoval_inv
    rw [show (scheduleStep o st).G.edges = (activateAll o st).G.edges from rfl]
    exact activateAll_inv o st hinv

lemma modelStep_inv (o : Oracle) (st st' : ModelState) (h0 : 0 ≤ st.link_decay_rate)
    (h1 : st.link_decay_rate ≤ 1) (hinv : EdgeInv st.G.edges) (h : modelStep o st = some st') :
    EdgeInv st'.G.edges := by
  unfold modelStep at h
  cases hE : execute_joint_projects (preExec o st) with
  | none => rw [hE, Option.none_bind] at h; exact absurd h (by simp)
  | some st1 =>
    rw [hE, Option.some_bind] at h
    have hinv1 : EdgeInv st1.G.edges := execute_inv _ _ hE (preExec_inv o st h0 h1 hinv)
    by_cases hn : st1.G.nodes.length = 0
    · rw [recordSnapshot_none _ hn] at h
      exact absurd h (by simp)
    · rw [recordSnapshot_eq_some _ hn, Option.some_inj] at h
      rw [← h]
      exact hinv1

lemma addClique_inv : ∀ (l : List AgentId) (G : NxGraph), EdgeInv G.edges →
    EdgeInv (addClique l G).edges
  | [], _, h => h
  | a :: rest, G, h => by
    refine addClique_inv rest _ ?_
    exact foldl_inv (fun g => EdgeInv g.edges) _
      (fun g b hg => add_edge_inv g a b (7/10) (by norm_num) (by norm_num) hg) rest G h

lemma addBridges_inv (o : InitOracle) (agents : List GovernanceAgent) (G : NxGraph)
    (h : EdgeInv G.edges) : EdgeInv (addBridges o agents G).edges := by
  unfold addBridges
  refine foldl_inv (fun g => EdgeInv g.edges) _ (fun g k hg => ?_) _ G h
  dsimp only
  repeat' split
  all_goals first
  | exact hg
  | exact add_edge_inv _ _ _ (1/10) (by norm_num) (by norm_num) hg

lemma initModel_inv (p : ModelParams) (o : InitOracle) : EdgeInv (initModel p o).G.edges := by
  unfold initModel
  apply addBridges_inv
  refine foldl_inv (fun g => EdgeInv g.edges) _ (fun g t hg => addClique_inv _ g hg) _ _ ?_
  intro e he
  exact absurd he (List.not_mem_nil e)

/-- C5: the `[0, 1]` clamping invariant on every edge's
`relationship_strength`: it holds for the initial network built by
`GovernanceModel.__init__` (clique edges `0.7`, bridging edges `0.1`),
and — provided `link_decay_rate ∈ [0, 1]` — it is preserved by every
call to `GovernanceModel.step` (collaboration edges at `0.05`, forum
creations at `0.1` and increments `+0.1` clamped at `1.0`, project
increments `+0.2` clamped at `1.0`, and multiplicative decay), hence it
holds in every reachable state. -/
theorem c5_strength_unit_interval :
    (∀ p o, EdgeInv (initModel p o).G.edges) ∧
    (∀ o st st', 0 ≤ st.link_decay_rate → st.link_decay_rate ≤ 1 →
      EdgeInv st.G.edges → modelStep o st = some st' → EdgeInv st'.G.edges) :=
  ⟨initModel_inv, fun o st st' h0 h1 hinv h => modelStep_inv o st st' h0 h1 hinv h⟩

/-- Any population counts and construction draws, for the C5 witness. -/
def demoParams : ModelParams :=
  { num_agents_per_type := fun _ => 1, link_decay_rate := 0, forum_frequency := 0,
    project_resource_threshold := 100, midpoint_removal_step := none }

def demoInitOracle : InitOracle :=
  { u1 := fun _ => 0, u2 := fun _ => 0, u3 := fun _ => 0, u4 := fun _ => 0,
    u5 := fun _ => 0, u6 := fun _ => 0, emuIdx := 0, catalystIdx := 0,
    bridgeA := fun _ => 0, bridgeB := fun _ => 0 }

/-- C5 (witness): the invariant at a concrete construction, and its
preservation across a concrete step satisfying all hypotheses. -/
theorem c5_strength_unit_interval_witness :
    EdgeInv (initModel demoParams demoInitOracle).G.edges ∧
    ((0:ℚ) ≤ c2State.link_decay_rate ∧ c2State.link_decay_rate ≤ 1 ∧ EdgeInv c2State.G.edges) ∧
    ∃ st', modelStep c2Oracle c2State = some st' ∧ EdgeInv st'.G.edges := by
  have hinv : EdgeInv c2State.G.edges := by norm_num [EdgeInv, c2State]
  have e1 : modelStep c2Oracle c2State =
      some { c2ExecResult with model_vars := c2ExecResult.model_vars ++ [snapOf c2ExecResult] } := by
    rw [modelStep, c2_exec_eval, Option.some_bind,
      recordSnapshot_eq_some c2ExecResult (by norm_num [c2ExecResult])]
  refine ⟨c5_strength_unit_interval.1 demoParams demoInitOracle,
    ⟨by norm_num [c2State], by norm_num [c2State], hinv⟩, _, e1,
    c5_strength_unit_interval.2 c2Oracle c2State _ (by norm_num [c2State])
      (by norm_num [c2State]) hinv e1⟩

/-- Number of queued pairs naming agent `i` (either endpoint, with
multiplicity). -/
def occA (i : AgentId) (q : List (AgentId × AgentId)) : Nat :=
  q.countP (fun p => p.1 == i) + q.countP (fun p => p.2 == i)

/-- Number of queued pairs joined by edge `e` (with multiplicity). -/
def occE (e : Edge) (q : List (AgentId × AgentId)) : Nat :=
  q.countP (fun p => matchesE e p.1 p.2)

/-- The reward an agent collects from the queue `q`: `10` per queued
pair naming it. -/
def projectedAgent (q : List (AgentId × AgentId)) (a : GovernanceAgent) : GovernanceAgent :=
  { a with resources := a.resources + 10 * (occA a.unique_id q : ℚ) }

/-- The clamped strength boosts an edge collects from the queue `q`:
one `min(1, s + 0.2)` application per queued pair it joins. -/
def projectedEdge (q : List (AgentId × AgentId)) (e : Edge) : Edge :=
  { e with relationship_strength := projBoost^[occE e q] e.relationship_strength }

/-- The outcome `execute_joint_projects` computes, in closed form. -/
def projectsOutcome (q : List (AgentId × AgentId)) (st : ModelState) : ModelState :=
  { st with
    agent_set := st.agent_set.map (projectedAgent q)
    G := { st.G with edges := st.G.edges.map (projectedEdge q) }
    successful_projects := [] }

lemma updResources_id (l : List GovernanceAgent) (i : AgentId) (d : ℚ) (a : GovernanceAgent) :
    ((fun a => if a.unique_id == i then { a with resources := a.resources + d } else a) a).unique_id
      = a.unique_id := by
  dsimp only
  split <;> rfl

lemma exists_id_updResources (l : List GovernanceAgent) (i : AgentId) (d : ℚ) (x : AgentId) :
    (∃ a ∈ updResources l i d, a.unique_id = x) ↔ (∃ a ∈ l, a.unique_id = x) := by
  simp only [updResources, List.mem_map]
  constructor
  · rintro ⟨a, ⟨a0, ha0, rfl⟩, hid⟩
    exact ⟨a0, ha0, by rw [← updResources_id l i d a0]; exact hid⟩
  · rintro ⟨a0, ha0, hid⟩
    exact ⟨_, ⟨a0, ha0, rfl⟩, by rw [updResources_id l i d a0]; exact hid⟩

lemma getNodeAgent_isSome_iff (st : ModelState) (x : AgentId) :
    (getNodeAgent st x).isSome ↔
      (st.G.nodes.contains x ∧ ∃ a ∈ st.agent_set, a.unique_id = x) := by
  unfold getNodeAgent
  split
  · rename_i hc
    simp only [hc, true_and, List.find?_isSome, beq_iff_eq]
  · rename_i hc
    simp only [Option.isSome_none, Bool.false_eq_true, false_iff, not_and]
    intro hcon
    exact absurd hcon hc

lemma execPair_eq (st : ModelState) (p : AgentId × AgentId) (a1 a2 : GovernanceAgent)
    (h1 : getNodeAgent st p.1 = some a1) (h2 : getNodeAgent st p.2 = some a2) :
    execPair st p = some { st with
      agent_set := updResources (updResources st.agent_set p.1 10) p.2 10
      G := { st.G with edges := st.G.edges.map (fun e => if matchesE e p.1 p.2
        then { e with relationship_strength := projBoost e.relationship_strength } else e) } } := by
  unfold execPair
  rw [h1, h2]
  dsimp only
  split
  · rfl
  · rename_i hne
    rw [Option.some_inj]
    have hmap : st.G.edges.map (fun e => if matchesE e p.1 p.2
        then { e with relationship_strength := projBoost e.relationship_strength } else e)
          = st.G.edges := by
      have hall : ∀ e ∈ st.G.edges, matchesE e p.1 p.2 = false := by
        intro e he
        by_contra hcon
        exact hne (List.any_eq_true.mpr ⟨e, he, by revert hcon; cases matchesE e p.1 p.2 <;> simp⟩)
      calc st.G.edges.map _ = st.G.edges.map id :=
            List.map_congr_left (fun e he => by rw [hall e he]; rfl)
        _ = st.G.edges := List.map_id st.G.edges
    rw [hmap]

lemma projectedAgent_nil (a : GovernanceAgent) : projectedAgent [] a = a := by
  simp [projectedAgent, occA]

lemma projectedEdge_nil (e : Edge) : projectedEdge [] e = e := by
  simp [projectedEdge, occE]

lemma occA_cons (i : AgentId) (p : AgentId × AgentId) (rest : List (AgentId × AgentId)) :
    occA i (p :: rest) =
      ((if p.1 = i then 1 else 0) + (if p.2 = i then 1 else 0)) + occA i rest := by
  simp only [occA, List.countP_cons, beq_iff_eq]
  by_cases h1 : p.1 = i <;> by_cases h2 : p.2 = i <;> simp [h1, h2] <;> omega

lemma occE_cons (e : Edge) (p : AgentId × AgentId) (rest : List (AgentId × AgentId)) :
    occE e (p :: rest) = (if matchesE e p.1 p.2 then 1 else 0) + occE e rest := by
  simp only [occE, List.countP_cons]
  cases matchesE e p.1 p.2 <;> simp <;> omega

lemma updResources_apply (i : AgentId) (x : GovernanceAgent) :
    (if x.unique_id == i then { x with resources := x.resources + 10 } else x) =
      { x with resources := x.resources + (if x.unique_id = i then 10 else 0) } := by
  by_cases h : x.unique_id = i
  · simp [h]
  · simp [h]

lemma updResources_map_proj (l : List GovernanceAgent) (p : AgentId × AgentId)
    (rest : List (AgentId × AgentId)) :
    (updResources (updResources l p.1 10) p.2 10).map (projectedAgent rest) =
      l.map (projectedAgent (p :: rest)) := by
  simp only [updResources, List.map_map]
  refine List.map_congr_left (fun a _ => ?_)
  simp only [Function.comp]
  rw [updResources_apply p.1 a]
  rw [updResources_apply p.2 { a with resources := a.resources + (if a.unique_id = p.1 then 10 else 0) }]
  simp only [projectedAgent, occA_cons]
  simp only [GovernanceAgent.mk.injEq, true_and, and_true]
  by_cases h1 : a.unique_id = p.1 <;> by_cases h2 : a.unique_id = p.2
  · have hp : p.1 = p.2 := h1.symm.trans h2
    simp [h1, h2, hp]
    try push_cast
    try ring
  · have hp : ¬ p.1 = p.2 := fun h => h2 (h1.trans h)
    have hp2 : ¬ p.2 = p.1 := fun h => hp h.symm
    simp [h1, h2, Ne.symm h2, hp, hp2]
    try push_cast
    try ring
  · have hp : ¬ p.2 = p.1 := fun h => h1 (h2.trans h)
    have hp2 : ¬ p.1 = p.2 := fun h => hp h.symm
    simp [h1, Ne.symm h1, h2, hp, hp2]
    try push_cast
    try ring
  · simp [h1, Ne.symm h1, h2, Ne.symm h2]
    try push_cast
    try ring

lemma projEdge_map (es : List Edge) (p : AgentId × AgentId) (rest : List (AgentId × AgentId)) :
    (es.map (fun e => if matchesE e p.1 p.2
        then { e with relationship_strength := projBoost e.relationship_strength } else e)).map
      (projectedEdge rest) = es.map (projectedEdge (p :: rest)) := by
  rw [List.map_map]
  refine List.map_congr_left (fun e _ => ?_)
  simp only [Function.comp]
  by_cases h : matchesE e p.1 p.2 = true
  · rw [if_pos h]
    simp only [projectedEdge, occE_cons, h, if_true, ite_true]
    rw [Nat.add_comm, Function.iterate_succ_apply]
    rfl
  · rw [if_neg h]
    simp only [projectedEdge, occE_cons, h, if_false, ite_false, Bool.false_eq_true, Nat.zero_add]

/-- The state one loop iteration of `execute_joint_projects` produces
for the queued pair `p` when both endpoints are present. -/
def pairOutcome (p : AgentId × AgentId) (st : ModelState) : ModelState :=
  { st with
    agent_set := updResources (updResources st.agent_set p.1 10) p.2 10
    G := { st.G with edges := st.G.edges.map (fun e => if matchesE e p.1 p.2
      then { e with relationship_strength := projBoost e.relationship_strength } else e) } }

lemma execPair_eq' (st : ModelState) (p : AgentId × AgentId) (a1 a2 : GovernanceAgent)
    (h1 : getNodeAgent st p.1 = some a1) (h2 : getNodeAgent st p.2 = some a2) :
    execPair st p = some (pairOutcome p st) := by
  rw [execPair_eq st p a1 a2 h1 h2]
  rfl

lemma pairOutcome_lookup (st : ModelState) (p : AgentId × AgentId) (x : AgentId) :
    (getNodeAgent (pairOutcome p st) x).isSome ↔ (getNodeAgent st x).isSome := by
  rw [getNodeAgent_isSome_iff, getNodeAgent_isSome_iff]
  constructor
  · rintro ⟨hc, hex⟩
    exact ⟨hc, (exists_id_updResources _ p.1 10 x).mp ((exists_id_updResources _ p.2 10 x).mp hex)⟩
  · rintro ⟨hc, hex⟩
    exact ⟨hc, (exists_id_updResources _ p.2 10 x).mpr ((exists_id_updResources _ p.1 10 x).mpr hex)⟩

lemma pairOutcome_agents (st : ModelState) (p : AgentId × AgentId)
    (rest : List (AgentId × AgentId)) :
    (pairOutcome p st).agent_set.map (projectedAgent rest) =
      st.agent_set.map (projectedAgent (p :: rest)) :=
  updResources_map_proj st.agent_set p rest

lemma pairOutcome_edges (st : ModelState) (p : AgentId × AgentId)
    (rest : List (AgentId × AgentId)) :
    (pairOutcome p st).G.edges.map (projectedEdge rest) =
      st.G.edges.map (projectedEdge (p :: rest)) :=
  projEdge_map st.G.edges p rest

lemma goExec_eq : ∀ (q : List (AgentId × AgentId)) (st : ModelState),
    (∀ p ∈ q, (getNodeAgent st p.1).isSome ∧ (getNodeAgent st p.2).isSome) →
    goExec q st = some { st with
      agent_set := st.agent_set.map (projectedAgent q)
      G := { st.G with edges := st.G.edges.map (projectedEdge q) } }
  | [], st, _ => by
    simp only [goExec, Option.some_inj]
    have hA : st.agent_set.map (projectedAgent []) = st.agent_set := by
      rw [List.map_congr_left (fun a _ => projectedAgent_nil a), List.map_id']
    have hE : st.G.edges.map (projectedEdge []) = st.G.edges := by
      rw [List.map_congr_left (fun e _ => projectedEdge_nil e), List.map_id']
    rw [hA, hE]
  | p :: rest, st, H => by
    obtain ⟨h1s, h2s⟩ := H p (List.mem_cons_self p rest)
    obtain ⟨a1, ha1⟩ := Option.isSome_iff_exists.mp h1s
    obtain ⟨a2, ha2⟩ := Option.isSome_iff_exists.mp h2s
    have hstep : goExec (p :: rest) st = goExec rest (pairOutcome p st) := by
      simp only [goExec]
      rw [execPair_eq' st p a1 a2 ha1 ha2]
    have H' : ∀ p' ∈ rest,
        (getNodeAgent (pairOutcome p st) p'.1).isSome ∧
        (getNodeAgent (pairOutcome p st) p'.2).isSome := by
      intro p' hp'
      obtain ⟨u1, u2⟩ := H p' (List.mem_cons_of_mem p hp')
      exact ⟨(pairOutcome_lookup st p p'.1).mpr u1, (pairOutcome_lookup st p p'.2).mpr u2⟩
    rw [hstep, goExec_eq rest (pairOutcome p st) H', Option.some_inj]
    rw [pairOutcome_agents, pairOutcome_edges]
    rfl

/-- C6: at the project-execution phase, provided every queued pair's
endpoints are still graph nodes, `execute_joint_projects` processes
every queued `(u, v)` pair — duplicates included, each independently —
unconditionally and without re-validating the strength/resource
threshold: each agent's resources grow by exactly `10` per queued pair
naming it; each still-existing edge receives one `+0.2` increment
clamped at `1.0` per queued pair joining it, while a missing edge gets
no strength update (and is not created) though the resource increments
still apply; afterwards the queue is empty. -/
theorem c6_execute_projects_spec (st : ModelState)
    (H : ∀ p ∈ st.successful_projects,
      (getNodeAgent st p.1).isSome ∧ (getNodeAgent st p.2).isSome) :
    execute_joint_projects st = some (projectsOutcome st.successful_projects st) := by
  unfold execute_joint_projects
  rw [goExec_eq st.successful_projects st H]
  rw [Option.map_some', Option.some_inj]
  rfl

/-- Three live agents, one edge, and a queue holding the pair `(1, 2)`
twice and the edgeless pair `(1, 3)` once. -/
def c6State : ModelState :=
  { agent_set := [{ unique_id := 1, agent_type := AgentType.GOVERNMENT, resources := 60,
                    commitment := 1, motivation_profile := 1 },
                  { unique_id := 2, agent_type := AgentType.CSO, resources := 30,
                    commitment := 1, motivation_profile := 1 },
                  { unique_id := 3, agent_type := AgentType.ACADEMIC, resources := 20,
                    commitment := 1, motivation_profile := 1 }],
    G := { nodes := [1, 2, 3], edges := [⟨1, 2, 1/2⟩] },
    successful_projects := [(1, 2), (1, 2), (1, 3)], steps := 0,
    link_decay_rate := 0, forum_frequency := 0,
    project_resource_threshold := 100, midpoint_removal_step := none,
    model_vars := [] }

/-- C6 (witness): the closed-form execution outcome at a concrete
queue with a duplicate pair and a pair whose edge is missing. -/
theorem c6_execute_projects_spec_witness :
    (∀ p ∈ c6State.successful_projects,
      (getNodeAgent c6State p.1).isSome ∧ (getNodeAgent c6State p.2).isSome) ∧
    execute_joint_projects c6State = some (projectsOutcome c6State.successful_projects c6State) :=
  ⟨by decide, c6_execute_projects_spec c6State (by decide)⟩

lemma execPair_some_lookup (st : ModelState) (p : AgentId × AgentId) (st1 : ModelState)
    (h : execPair st p = some st1) :
    (getNodeAgent st p.1).isSome ∧ (getNodeAgent st p.2).isSome := by
  unfold execPair at h
  constructor
  · cases hx : getNodeAgent st p.1 with
    | none => rw [hx] at h; exact absurd h (by simp)
    | some a => rfl
  · cases hx : getNodeAgent st p.2 with
    | none =>
      rw [hx] at h
      cases hy : getNodeAgent st p.1 <;> rw [hy] at h <;> exact absurd h (by simp)
    | some a => rfl

lemma goExec_isSome_forall : ∀ (q : List (AgentId × AgentId)) (st : ModelState),
    (goExec q st).isSome →
    ∀ p ∈ q, (getNodeAgent st p.1).isSome ∧ (getNodeAgent st p.2).isSome
  | [], _, _, p, hp => absurd hp (List.not_mem_nil p)
  | p0 :: rest, st, hs, p, hp => by
    rcases hx : execPair st p0 with _ | st1
    · rw [show goExec (p0 :: rest) st = none by simp only [goExec]; rw [hx]] at hs
      exact absurd hs (by simp)
    · have hgo : goExec (p0 :: rest) st = goExec rest st1 := by
        simp only [goExec]; rw [hx]
      rw [hgo] at hs
      rcases List.mem_cons.mp hp with rfl | hp'
      · exact execPair_some_lookup st p st1 hx
      · obtain ⟨u1, u2⟩ := execPair_some_lookup st p0 st1 hx
        obtain ⟨a1, ha1⟩ := Option.isSome_iff_exists.mp u1
        obtain ⟨a2, ha2⟩ := Option.isSome_iff_exists.mp u2
        have hpair := execPair_eq' st p0 a1 a2 ha1 ha2
        rw [hpair, Option.some_inj] at hx
        subst hx
        obtain ⟨v1, v2⟩ := goExec_isSome_forall rest _ hs p hp'
        exact ⟨(pairOutcome_lookup st p0 p.1).mp v1, (pairOutcome_lookup st p0 p.2).mp v2⟩

/-- C10: `execute_joint_projects` completes without raising precisely
when every queued pair's endpoints are still nodes of the graph; the
node-attribute lookup on a missing endpoint is unguarded, so a queued
pair with a removed endpoint makes the whole `Step()` call raise
(`KeyError`) instead of skipping the pair or paying the surviving
agent. -/
theorem c10_execute_requires_live_endpoints :
    (∀ st : ModelState, (execute_joint_projects st).isSome ↔
      ∀ p ∈ st.successful_projects,
        (getNodeAgent st p.1).isSome ∧ (getNodeAgent st p.2).isSome) ∧
    (∀ (o : Oracle) (st : ModelState),
      execute_joint_projects (preExec o st) = none → modelStep o st = none) := by
  constructor
  · intro st
    constructor
    · intro hs
      refine goExec_isSome_forall st.successful_projects st ?_
      unfold execute_joint_projects at hs
      cases hg : goExec st.successful_projects st with
      | none => rw [hg] at hs; exact absurd hs (by simp)
      | some st1 => rfl
    · intro H
      unfold execute_joint_projects
      rw [goExec_eq st.successful_projects st H]
      rfl
  · intro o st h
    unfold modelStep
    rw [h, Option.none_bind]

/-- State whose queue holds the pair `(1, 3)` although `3` is not a
node of the graph. -/
def c10State : ModelState :=
  { agent_set := [{ unique_id := 1, agent_type := AgentType.GOVERNMENT, resources := 0,
                    commitment := 0, motivation_profile := 0 },
                  { unique_id := 2, agent_type := AgentType.CSO, resources := 0,
                    commitment := 0, motivation_profile := 0 }],
    G := { nodes := [1, 2], edges := [] },
    successful_projects := [(1, 3)], steps := 0,
    link_decay_rate := 0, forum_frequency := 0,
    project_resource_threshold := 100, midpoint_removal_step := none,
    model_vars := [] }

/-- A draw whose step leaves `c10State` untouched before execution. -/
def c10Oracle : Oracle :=
  { order := [],
    collabDraw := fun _ => 1,
    partnerIdx := fun _ => 0,
    acceptDraw := fun _ => 1,
    proposeDraw := fun _ => 1,
    neighborIdx := fun _ => 0,
    forumDraw := 1,
    attendDraw := fun _ => 1 }

/-- C10 (witness): at the concrete state with the dead endpoint `3`
queued, the whole step raises, and `execute_joint_projects` is not
defined there. -/
theorem c10_execute_requires_live_endpoints_witness :
    modelStep c10Oracle c10State = none ∧ ¬ (execute_joint_projects c10State).isSome := by
  constructor
  · exact c10_execute_requires_live_endpoints.2 c10Oracle c10State (by decide)
  · intro hs
    have h3 := ((c10_execute_requires_live_endpoints.1 c10State).mp hs (1, 3) (by decide)).2
    revert h3
    decide

lemma filter_ne_length : ∀ (l : List GovernanceAgent) (b : GovernanceAgent), b ∈ l →
    (l.map (fun a => a.unique_id)).Nodup →
    (l.filter (fun a => a.unique_id != b.unique_id)).length + 1 = l.length
  | [], b, hb, _ => absurd hb (List.not_mem_nil b)
  | a :: t, b, hb, hnd => by
    rw [List.map_cons, List.nodup_cons] at hnd
    obtain ⟨hna, hndt⟩ := hnd
    rcases List.mem_cons.mp hb with rfl | hbt
    · rw [List.filter_cons_of_neg (by simp)]
      have ht : t.filter (fun a => a.unique_id != b.unique_id) = t := by
        refine List.filter_eq_self.mpr (fun x hx => ?_)
        simp only [bne_iff_ne, ne_eq]
        intro hid
        exact hna (List.mem_map.mpr ⟨x, hx, hid⟩)
      rw [ht, List.length_cons]
    · have hab : a.unique_id ≠ b.unique_id := by
        intro hid
        exact hna (List.mem_map.mpr ⟨b, hbt, hid.symm⟩)
      rw [List.filter_cons_of_pos (by simpa using hab), List.length_cons, List.length_cons,
        filter_ne_length t b hbt hndt]

/-- C8: when the removal event is due and a broker (EMU) agent exists,
`applyRemoval` removes exactly that agent's node and every incident
edge from the graph, and exactly that agent from the population (which
shrinks by one when identifiers are distinct); every other agent
record, and every edge not incident to the broker, survives unchanged.
The removal condition pins the step counter to the single configured
value, and each completed step increases the counter by exactly one,
so the event fires at most once per run. -/
theorem c8_broker_removal_exact (st : ModelState) (b : GovernanceAgent)
    (hdue : removalDue st = true)
    (hfind : st.agent_set.find? (fun a => a.is_emu) = some b)
    (hnodup : (st.agent_set.map (fun a => a.unique_id)).Nodup) :
    applyRemoval st = { st with
      agent_set := st.agent_set.filter (fun a => a.unique_id != b.unique_id)
      G := st.G.remove_node b.unique_id } ∧
    (applyRemoval st).agent_set.length + 1 = st.agent_set.length ∧
    (∀ a ∈ st.agent_set, a.unique_id ≠ b.unique_id → a ∈ (applyRemoval st).agent_set) ∧
    (∀ e ∈ st.G.edges, e.u ≠ b.unique_id → e.v ≠ b.unique_id → e ∈ (applyRemoval st).G.edges) ∧
    (∀ st1 : ModelState, st1.midpoint_removal_step = st.midpoint_removal_step →
      removalDue st1 = true → st1.steps = st.steps) ∧
    (∀ (o : Oracle) (s s' : ModelState), modelStep o s = some s' → s'.steps = s.steps + 1) := by
  have heq : applyRemoval st = { st with
      agent_set := st.agent_set.filter (fun a => a.unique_id != b.unique_id)
      G := st.G.remove_node b.unique_id } := by
    unfold applyRemoval
    rw [hdue, if_pos rfl, hfind]
  refine ⟨heq, ?_, ?_, ?_, ?_, modelStep_steps⟩
  · rw [heq]
    exact filter_ne_length st.agent_set b (List.mem_of_find?_eq_some hfind) hnodup
  · intro a ha hne
    rw [heq]
    exact List.mem_filter.mpr ⟨ha, by simpa using hne⟩
  · intro e he hu hv
    rw [heq]
    refine List.mem_filter.mpr ⟨he, ?_⟩
    simp only [NxGraph.remove_node, Bool.and_eq_true, bne_iff_ne, ne_eq]
    exact ⟨hu, hv⟩
  · intro st1 hm hdue1
    unfold removalDue at hdue hdue1
    rw [hm] at hdue1
    revert hdue hdue1
    cases st.midpoint_removal_step with
    | none => simp
    | some k =>
      simp only [Bool.and_eq_true, beq_iff_eq, bne_iff_ne, ne_eq, and_imp]
      intro _ hs _ hs1
      rw [hs, hs1]

/-- A state at the configured removal step `3` with a broker present. -/
def c8State : ModelState :=
  { agent_set := [{ unique_id := 1, agent_type := AgentType.GOVERNMENT, resources := 40,
                    commitment := 1, motivation_profile := 0, is_emu := true },
                  { unique_id := 2, agent_type := AgentType.ACADEMIC, resources := 20,
                    commitment := 1, motivation_profile := 0, is_catalyst := true },
                  { unique_id := 3, agent_type := AgentType.CSO, resources := 25,
                    commitment := 1, motivation_profile := 0 }],
    G := { nodes := [1, 2, 3], edges := [⟨1, 2, 7/10⟩, ⟨2, 3, 1/10⟩] },
    successful_projects := [], steps := 3,
    link_decay_rate := 0, forum_frequency := 0,
    project_resource_threshold := 100, midpoint_removal_step := some 3,
    model_vars := [] }

/-- The broker of `c8State`. -/
def c8Emu : GovernanceAgent :=
  { unique_id := 1, agent_type := AgentType.GOVERNMENT, resources := 40,
    commitment := 1, motivation_profile := 0, is_emu := true }

/-- C8 (witness): the removal at the concrete due state: exact removal
equation, population shrinks by one, and the non-incident edge
survives. -/
theorem c8_broker_removal_exact_witness :
    applyRemoval c8State = { c8State with
      agent_set := c8State.agent_set.filter (fun a => a.unique_id != c8Emu.unique_id)
      G := c8State.G.remove_node c8Emu.unique_id } ∧
    (applyRemoval c8State).agent_set.length + 1 = c8State.agent_set.length ∧
    (⟨2, 3, 1/10⟩ : Edge) ∈ (applyRemoval c8State).G.edges := by
  obtain ⟨h1, h2, h3, h4, h5, h6⟩ :=
    c8_broker_removal_exact c8State c8Emu (by decide) (by decide) (by decide)
  refine ⟨h1, h2, h4 ⟨2, 3, 1/10⟩ ?_ (by decide) (by decide)⟩
  simp [c8State]

lemma agentStep_empty (o : Oracle) (i : AgentId) (st : ModelState)
    (h : st.agent_set = []) : agentStep o i st = st := by
  unfold agentStep
  rw [h]
  rfl

lemma foldl_agentStep_empty (o : Oracle) :
    ∀ (l : List AgentId) (st : ModelState), st.agent_set = [] →
      l.foldl (fun s i => agentStep o i s) st = st
  | [], _, _ => rfl
  | i :: l, st, h => by
    rw [List.foldl_cons, agentStep_empty o i st h, foldl_agentStep_empty o l st h]

lemma applyRemoval_empty (st : ModelState) (h : st.agent_set = []) : applyRemoval st = st := by
  unfold applyRemoval
  rw [h]
  split <;> rfl

lemma forum_empty (o : Oracle) (st : ModelState) (h : st.agent_set = []) :
    trigger_forum_event o st = st := by
  unfold trigger_forum_event
  rw [h]
  split <;> rfl

lemma link_decay_empty (st : ModelState) (h : st.G.edges = []) : link_decay st = st := by
  unfold link_decay
  rw [h, List.map_nil, ← h]

/-- C9 (amended): stepping a model with zero live agents (and the
correspondingly empty graph and queue) leaves the state unchanged
except for the step counter through every pre-metrics phase — all
per-agent behaviours, the scheduled removal, the forum event, decay and
project execution are vacuous no-ops — and the density,
largest-component and (spec-modelled) Gini metrics have their defined
defaults `0`; but the average-clustering reporter divides by the node
count `0` on the empty graph (`nx.average_clustering` raises
`ZeroDivisionError`), so `Step()` raises instead of recording the
snapshot. -/
theorem c9_zero_agents_step (o : Oracle) (st : ModelState)
    (h1 : st.agent_set = []) (h2 : st.G.nodes = []) (h3 : st.G.edges = [])
    (h4 : st.successful_projects = []) :
    preExec o st = { st with steps := st.steps + 1 } ∧
    modelStep o st = none ∧
    averageClustering st.G = none ∧
    nxDensity st.G = 0 ∧
    largestCCSize st.G = 0 ∧
    giniOfResources st = 0 := by
  have hact : activateAll o st = st := foldl_agentStep_empty o o.order st h1
  have hpre : preExec o st = { st with steps := st.steps + 1 } := by
    unfold preExec scheduleStep
    rw [hact]
    show link_decay (trigger_forum_event o (applyRemoval { st with steps := st.steps + 1 })) = _
    rw [applyRemoval_empty { st with steps := st.steps + 1 } h1,
      forum_empty o { st with steps := st.steps + 1 } h1,
      link_decay_empty { st with steps := st.steps + 1 } h3]
  have hex : execute_joint_projects { st with steps := st.steps + 1 } =
      some { st with steps := st.steps + 1 } := by
    unfold execute_joint_projects
    simp only [h4, goExec, Option.map_some', Option.some_inj]
  refine ⟨hpre, ?_, ?_, ?_, ?_, ?_⟩
  · unfold modelStep
    rw [hpre, hex, Option.some_bind]
    exact recordSnapshot_none _ (by rw [show ({ st with steps := st.steps + 1 } :
      ModelState).G.nodes = st.G.nodes from rfl, h2]; rfl)
  · unfold averageClustering
    rw [h2]
    rfl
  · unfold nxDensity
    rw [h3]
    rfl
  · unfold largestCCSize
    rw [h2]
    rfl
  · unfold giniOfResources gini
    rw [h1]
    rfl

/-- The model state with zero live agents. -/
def c9Empty : ModelState :=
  { agent_set := [], G := { nodes := [], edges := [] },
    successful_projects := [], steps := 0,
    link_decay_rate := 0, forum_frequency := 0,
    project_resource_threshold := 100, midpoint_removal_step := none,
    model_vars := [] }

/-- Any step draw for the empty state. -/
def c9Oracle : Oracle :=
  { order := [],
    collabDraw := fun _ => 1,
    partnerIdx := fun _ => 0,
    acceptDraw := fun _ => 1,
    proposeDraw := fun _ => 1,
    neighborIdx := fun _ => 0,
    forumDraw := 1,
    attendDraw := fun _ => 1 }

/-- C9 (counterexample): stepping the zero-agent model is not
error-free — the step aborts (in the source: `ZeroDivisionError` inside
the average-clustering reporter) instead of recording default
metrics. -/
theorem c9_zero_agents_counterexample : modelStep c9Oracle c9Empty = none := by decide

/-- C9 (witness): the amended statement at the concrete empty state. -/
theorem c9_zero_agents_step_witness :
    preExec c9Oracle c9Empty = { c9Empty with steps := c9Empty.steps + 1 } ∧
    modelStep c9Oracle c9Empty = none ∧
    averageClustering c9Empty.G = none ∧
    nxDensity c9Empty.G = 0 ∧
    largestCCSize c9Empty.G = 0 ∧
    giniOfResources c9Empty = 0 :=
  c9_zero_agents_step c9Oracle c9Empty rfl rfl rfl rfl

lemma giniWeighted_replicate (n c : ℚ) : ∀ (k i : Nat),
    giniWeighted n i (List.replicate k c) = c * k * (2 * i + k - n)
  | 0, i => by
    simp [giniWeighted]
  | k + 1, i => by
    rw [List.replicate_succ]
    simp only [giniWeighted]
    rw [giniWeighted_replicate n c k (i + 1)]
    push_cast
    ring

lemma gini_replicate (k : Nat) (c : ℚ) : gini (List.replicate k c) = 0 := by
  simp only [gini]
  have hs : (List.replicate k c).insertionSort (· ≤ ·) = List.replicate k c :=
    List.perm_replicate.mp (List.perm_insertionSort _ _)
  rw [hs]
  split
  · rfl
  · rw [List.length_replicate, giniWeighted_replicate]
    have hz : c * (k : ℚ) * (2 * (0 : Nat) + k - k) = 0 := by push_cast; ring
    rw [hz, zero_div]

lemma gini_perm (xs ys : List ℚ) (h : xs.Perm ys) : gini xs = gini ys := by
  have hs : xs.insertionSort (· ≤ ·) = ys.insertionSort (· ≤ ·) :=
    List.eq_of_perm_of_sorted
      ((List.perm_insertionSort _ xs).trans (h.trans (List.perm_insertionSort _ ys).symm))
      (List.sorted_insertionSort _ xs) (List.sorted_insertionSort _ ys)
  simp only [gini]
  rw [hs]

lemma gini_short (xs : List ℚ) (h : xs.length ≤ 1) : gini xs = 0 := by
  simp only [gini]
  rw [if_pos (Or.inl (by rw [(List.perm_insertionSort _ xs).length_eq]; exact h))]

lemma gini_zero_sum (xs : List ℚ) (h : xs.sum = 0) : gini xs = 0 := by
  simp only [gini]
  rw [if_pos (Or.inr (by rw [(List.perm_insertionSort _ xs).sum_eq]; exact h))]

/-- C3: the (spec-modelled) Gini reporter over all live agents'
resources — `Σ (2*(i+1) − n − 1) * r[i] / (n * Σ r[i])` over the
ascending-sorted values, defined as `0` for `n ≤ 1` or zero total — is
exactly `0` when every live agent holds identical resources, and is
invariant under any reordering of the resource values; the `n ≤ 1` and
zero-total defaults hold as specified. -/
theorem c3_gini_reporter :
    (∀ (st : ModelState) (c : ℚ), (∀ a ∈ st.agent_set, a.resources = c) →
      giniOfResources st = 0) ∧
    (∀ st1 st2 : ModelState,
      (st1.agent_set.map (fun a => a.resources)).Perm
        (st2.agent_set.map (fun a => a.resources)) →
      giniOfResources st1 = giniOfResources st2) ∧
    (∀ xs : List ℚ, xs.length ≤ 1 → gini xs = 0) ∧
    (∀ xs : List ℚ, xs.sum = 0 → gini xs = 0) := by
  refine ⟨?_, ?_, gini_short, gini_zero_sum⟩
  · intro st c hall
    unfold giniOfResources
    have hrep : st.agent_set.map (fun a => a.resources) =
        List.replicate (st.agent_set.map (fun a => a.resources)).length c := by
      refine List.eq_replicate_of_mem (fun b hb => ?_)
      obtain ⟨a, ha, rfl⟩ := List.mem_map.mp hb
      exact hall a ha
    rw [hrep, gini_replicate]
  · intro st1 st2 h
    exact gini_perm _ _ h

/-- Two-agent states with equal resources, and with the same resources
in swapped order. -/
def c3StateEq : ModelState :=
  { agent_set := [{ unique_id := 1, agent_type := AgentType.GOVERNMENT, resources := 25,
                    commitment := 1, motivation_profile := 0 },
                  { unique_id := 2, agent_type := AgentType.CSO, resources := 25,
                    commitment := 1, motivation_profile := 0 }],
    G := { nodes := [1, 2], edges := [] },
    successful_projects := [], steps := 0,
    link_decay_rate := 0, forum_frequency := 0,
    project_resource_threshold := 100, midpoint_removal_step := none,
    model_vars := [] }

def c3StateA : ModelState :=
  { c3StateEq with agent_set :=
    [{ unique_id := 1, agent_type := AgentType.GOVERNMENT, resources := 25,
       commitment := 1, motivation_profile := 0 },
     { unique_id := 2, agent_type := AgentType.CSO, resources := 30,
       commitment := 1, motivation_profile := 0 }] }

def c3StateB : ModelState :=
  { c3StateEq with agent_set :=
    [{ unique_id := 1, agent_type := AgentType.GOVERNMENT, resources := 30,
       commitment := 1, motivation_profile := 0 },
     { unique_id := 2, agent_type := AgentType.CSO, resources := 25,
       commitment := 1, motivation_profile := 0 }] }

/-- C3 (witness): zero Gini for the equal-resources state, permutation
invariance for the swapped pair, and the `n ≤ 1` / zero-total defaults
at concrete lists. -/
theorem c3_gini_reporter_witness :
    giniOfResources c3StateEq = 0 ∧
    giniOfResources c3StateA = giniOfResources c3StateB ∧
    gini [60] = 0 ∧
    gini [3, -3] = 0 := by
  refine ⟨c3_gini_reporter.1 c3StateEq 25 (by decide), ?_, ?_, ?_⟩
  · exact c3_gini_reporter.2.1 c3StateA c3StateB (by decide)
  · exact c3_gini_reporter.2.2.1 [60] (by decide)
  · exact c3_gini_reporter.2.2.2 [3, -3] (by norm_num)

/-- C4 (spec-modelled): `Construct(config)` fails with
`ConfigurationError` — and no model is built — whenever some per-type
count is negative or a probability parameter (link decay rate, forum
frequency) lies outside `[0, 1]`; for every valid configuration it
returns a model instance without error. -/
theorem c4_construct_validation :
    (∀ (c : SpecConfig) (o : InitOracle),
      ((∃ t, c.counts t < 0) ∨ c.link_decay_rate < 0 ∨ 1 < c.link_decay_rate ∨
        c.forum_frequency < 0 ∨ 1 < c.forum_frequency) →
      constructModel c o = Except.error ConfigurationError.invalidConfiguration) ∧
    (∀ (c : SpecConfig) (o : InitOracle), ValidConfig c →
      ∃ m, constructModel c o = Except.ok m) := by
  constructor
  · intro c o hbad
    have hnv : ¬ ValidConfig c := by
      rintro ⟨hcnt, ⟨hd0, hd1⟩, hf0, hf1⟩
      rcases hbad with ⟨t, ht⟩ | h | h | h | h
      · exact absurd (hcnt t) (not_le.mpr ht)
      · exact absurd hd0 (not_le.mpr h)
      · exact absurd hd1 (not_le.mpr h)
      · exact absurd hf0 (not_le.mpr h)
      · exact absurd hf1 (not_le.mpr h)
    unfold constructModel
    rw [if_neg hnv]
  · intro c o hva
    unfold constructModel
    rw [if_pos hva]
    exact ⟨_, rfl⟩

/-- A configuration with a negative government count. -/
def c4Bad : SpecConfig :=
  { counts := fun _ => -1, link_decay_rate := 0, forum_frequency := 0,
    project_resource_threshold := 100, midpoint_removal_step := none }

/-- A small valid configuration. -/
def c4Good : SpecConfig :=
  { counts := fun _ => 1, link_decay_rate := 0, forum_frequency := 1,
    project_resource_threshold := 100, midpoint_removal_step := none }

/-- C4 (witness): rejection of the negative-count configuration and
acceptance of the valid one. -/
theorem c4_construct_validation_witness :
    constructModel c4Bad demoInitOracle = Except.error ConfigurationError.invalidConfiguration ∧
    ∃ m, constructModel c4Good demoInitOracle = Except.ok m := by
  constructor
  · exact c4_construct_validation.1 c4Bad demoInitOracle
      (Or.inl ⟨AgentType.GOVERNMENT, by norm_num [c4Bad]⟩)
  · refine c4_construct_validation.2 c4Good demoInitOracle ?_
    refine ⟨fun t => by norm_num [c4Good], ⟨by norm_num [c4Good], by norm_num [c4Good]⟩,
      by norm_num [c4Good], by norm_num [c4Good]⟩

/-- C7 (spec-modelled): with a single seeded generator feeding every
random draw, two independently constructed and stepped runs with equal
configurations and equal seeds record equal step-0 model-level
snapshots. -/
theorem c7_seeded_determinism (c1 c2 : SpecConfig) (s1 s2 : Nat) (r1 r2 : Option Snapshot)
    (hc : c1 = c2) (hs : s1 = s2) (h1 : r1 = runSnap0 c1 s1) (h2 : r2 = runSnap0 c2 s2) :
    r1 = r2 := by
  subst hc
  subst hs
  subst h1
  subst h2
  rfl

/-- The literal Scenario A configuration: populations Government 5,
CSO 5, PrivateEnterprise 3, Academic 2, decay `0.02`, forum frequency
`0.2`, threshold `100`. -/
def scenarioA : SpecConfig :=
  { counts := fun t => match t with
      | AgentType.GOVERNMENT => 5
      | AgentType.CSO => 5
      | AgentType.PRIVATE_ENTERPRISE => 3
      | AgentType.ACADEMIC => 2,
    link_decay_rate := 1/50, forum_frequency := 1/5,
    project_resource_threshold := 100, midpoint_removal_step := none }

/-- C7 (witness): two runs of Scenario A with seed `42` record the same
step-0 snapshot. -/
theorem c7_seeded_determinism_witness :
    runSnap0 scenarioA 42 = runSnap0 scenarioA 42 :=
  c7_seeded_determinism scenarioA scenarioA 42 42
    (runSnap0 scenarioA 42) (runSnap0 scenarioA 42) rfl rfl rfl rfl
